import Mathlib

/-!
A shallow embedding, in Lean 4, of the review-collection and caching engine
of `src/app.py` (a Flask service that paginates the Steam review API, tags
reviews against thematic keyword sets, scores sentiment, aggregates
statistics, and caches collection progress).

Modelling conventions, stated once:

* Python numbers (floats and ints) are modelled as `ℚ` and `ℕ`/`ℤ`.  All the
  numeric facts proved here involve values that are exact in both Python and
  in `ℚ` (`round` ties and binary-float artefacts play no role in any claim),
  so the idealized-decimal model of `round` below is adequate.
* The two external collaborators that the spec declares out of scope are
  passed in as opaque parameters: the sentence tokenizer
  (`nltk.sent_tokenize`) as `tok : String → List String` and the VADER
  polarity model (`analyzer.polarity_scores(...)["compound"]`) as
  `pol : String → ℚ`.  The upstream Steam endpoint (`_steam_get_with_retry`,
  which already folds retries/backoff into one `Optional` result) is passed
  as `fetch : String → Option SteamPayload`, keyed by the request cursor; the
  other request parameters are fixed within one `/analyze` call.
* `TEMP_REVIEW_CACHE` (a Python dict) is modelled as an insertion-ordered
  association list with unique keys, the semantics a dict guarantees;
  `dictSet` / `dictGet` / `dictPop` mirror item assignment, lookup and
  `pop`.  Collecting a set of keys and popping each of them is modelled as
  the equivalent filter where noted.  Entries are modelled by value; the
  Python-level object aliasing of one entry stored under several keys is not
  observable by any of the claims treated here.
* The `payload` field stored into a cache entry (the full JSON response, kept
  for legacy readers) and the CSV serialization of `/export` are not modelled:
  no claim inspects them.
* Strings in play (keywords, cursors, labels) are ASCII; `pyLower`,
  `pyStrip` and the word-character test below agree with Python on ASCII.
-/

/-! ### Configuration constants (`src/app.py` lines 41-60) -/

def POSITIVE_THRESHOLD : ℚ := 0.2

def NEGATIVE_THRESHOLD : ℚ := -0.2

def DEFAULT_REVIEW_CHUNK_SIZE : ℕ := 20

def STEAM_REVIEWS_PER_PAGE : ℕ := 100

def CACHE_TTL_SECONDS : ℚ := 30 * 60

def CACHE_MAX_ITEMS : ℕ := 50

def MAX_REVIEW_COUNT : ℕ := 5000

def MIN_REVIEW_COUNT : ℕ := 1

/-! ### Small Python helpers -/

/-- Python `round(x, d)` on exact decimal values: round half to even at the
`d`-th decimal digit (idealized to `ℚ`; see the header note). -/
def roundHalfEven (q : ℚ) : ℤ :=
  let f : ℤ := Rat.floor q
  let r : ℚ := q - f
  if r < 1/2 then f
  else if 1/2 < r then f + 1
  else if f % 2 = 0 then f else f + 1

/-- Python `round(x, d)` for `d` decimal places, on `ℚ`. -/
def pyRound (d : ℕ) (x : ℚ) : ℚ :=
  (roundHalfEven (x * (10 : ℚ) ^ d) : ℚ) / (10 : ℚ) ^ d

/-- Whitespace as stripped by Python `str.strip()` (ASCII part). -/
def isPySpace (c : Char) : Bool :=
  c == ' ' || c == '\t' || c == '\n' || c == '\r' || c == '\x0b' || c == '\x0c'

/-- Python `str.strip()` (ASCII whitespace; executable, unlike `String.trim`). -/
def pyStrip (s : String) : String :=
  ⟨((s.data.dropWhile isPySpace).reverse.dropWhile isPySpace).reverse⟩

/-- Python `str.lower()` on ASCII. -/
def pyLower (s : String) : String :=
  ⟨s.data.map Char.toLower⟩

/-- Model of `_safe_int(value, default)` (line 146): the inputs the service
feeds it are either absent or already integers, so the `try` never fails. -/
def safeInt (value : Option ℤ) (default : ℤ) : ℤ :=
  value.getD default

/-- Model of `_clamp(n, lo, hi)` (line 152). -/
def intClamp (n lo hi : ℤ) : ℤ :=
  max lo (min hi n)

/-- Clamp on `ℕ`, used where all quantities involved are non-negative. -/
def natClamp (n lo hi : ℕ) : ℕ :=
  max lo (min hi n)

/-- Model of `_cursor_ok` (lines 182-186) on an actual string: the stripped
string must be neither empty nor the sentinel `"0"`. -/
def cursorOkStr (s : String) : Bool :=
  let t := pyStrip s
  !(t == "") && !(t == "0")

/-- Model of `_cursor_ok` (lines 182-186): `None` fails, a string is checked
stripped. -/
def cursorOk (c : Option String) : Bool :=
  match c with
  | none => false
  | some s => cursorOkStr s

/-- Model of `_truthy_flag(v, default)` (lines 188-196). -/
def truthyFlag (v : Option String) (default : Bool) : Bool :=
  match v with
  | none => default
  | some s =>
    let t := pyLower (pyStrip s)
    if t == "0" || t == "false" || t == "no" || t == "n" then false
    else if t == "1" || t == "true" || t == "yes" || t == "y" then true
    else default

/-! ### Thematic keywords (`src/app.py` lines 65-109) -/

def LENGTH_KEYWORDS : List String := [
  "hour", "hours", "length", "lengths", "lengthy", "short", "long",
  "time sink", "time investment", "time commitment",
  "seconds", "minute", "minutes", "hourly",
  "per day", "days", "weekly", "month", "months",
  "quarterly", "year", "years", "yearly", "annual",
  "session", "sessions", "playtime", "play time", "player time",
  "limited time",
  "runtime", "run time",
  "playthrough", "play-through",
  "game length", "story length",
  "beat in", "beaten in", "finished in", "finish in",
  "hours in"
]

def GRIND_KEYWORDS : List String := [
  "grind", "grindy", "farming", "repetitive", "repetition",
  "burnout", "dailies", "daily", "chore", "time waste",
  "waste of time", "time waster", "time-waster",
  "time wasting", "time-wasting",
  "time-consuming", "time consuming",
  "busywork", "padding", "filler",
  "tedious", "tedium", "tedius",
  "grindfest", "grind fest", "mindless grind",
  "time gate", "time gated", "time-gated",
  "timegate", "timegated"
]

def VALUE_KEYWORDS : List String := [
  "replayable", "replayability", "content updates",
  "longevity", "shelf life",
  "lifespan", "life span", "roadmap", "road map", "season", "seasons", "seasonal",
  "too short for the price",
  "worth the time", "not worth the time",
  "time well spent",
  "good use of time",
  "waste of time and money",
  "hours of content", "hours of gameplay",
  "per hour", "per-hour",
  "respect my time", "respects my time", "respect your time", "respects your time",
  "respect the player\x27s time", "respect the players\x27 time", "respects the player\x27s time",
  "respecting my time", "respecting your time",
  "waste my time", "wastes my time", "waste your time", "wastes your time",
  "waste of time", "total waste of time", "complete waste of time"
]

/-! ### Keyword matching (`compile_keyword_pattern`, lines 114-126)

The compiled pattern is an alternation: a keyword containing a space or a
hyphen is an escaped literal (a case-insensitive substring match), any other
keyword is wrapped in `\b ... \b` (a case-insensitive whole-word match, where
a word character is `[A-Za-z0-9_]`).  `pattern.search(t)` succeeds exactly
when some alternative matches somewhere in `t`; that disjunction over the
keyword list is what the functions below compute, working on lowered
character lists (lowering both sides implements `re.IGNORECASE` on ASCII and
does not change word-character status). -/

/-- Word characters as in the regex `\b` boundary (ASCII `\w`). -/
def isWordChar (c : Char) : Bool :=
  c.isAlphanum || c == '_'

/-- The lowered character list of a string. -/
def lowerStr (s : String) : List Char :=
  s.data.map Char.toLower

/-- Does `t` start with the block `p`? -/
def startsWithSeq : List Char → List Char → Bool
  | [], _ => true
  | _ :: _, [] => false
  | a :: as, b :: bs => a == b && startsWithSeq as bs

/-- Does the block `p` occur contiguously anywhere in `t`?  (Literal
substring search, as for an escaped multi-word keyword.) -/
def containsSeq (p : List Char) : List Char → Bool
  | [] => startsWithSeq p []
  | c :: rest => startsWithSeq p (c :: rest) || containsSeq p rest

/-- The character just left of a `\b` match position is absent or not a word
character. -/
def boundaryOkBefore : Option Char → Bool
  | none => true
  | some c => !isWordChar c

/-- The character just right of a `\b` match end is absent or not a word
character. -/
def boundaryOkAfter : List Char → Bool
  | [] => true
  | c :: _ => !isWordChar c

/-- Search for an occurrence of `kw` delimited by `\b` on both sides; `prev`
is the character immediately before the current position (`none` at the start
of the text). -/
def wordMatchFrom (kw : List Char) : Option Char → List Char → Bool
  | prev, [] => startsWithSeq kw [] && boundaryOkBefore prev
  | prev, c :: rest =>
    (startsWithSeq kw (c :: rest) && boundaryOkBefore prev &&
      boundaryOkAfter (List.drop kw.length (c :: rest)))
    || wordMatchFrom kw (some c) rest

/-- Does the stripped keyword contain a space or a hyphen (line 120)? -/
def strHasSpaceOrHyphen (s : String) : Bool :=
  s.data.any (fun c => c == ' ' || c == '-')

/-- One alternative of the compiled pattern, applied to a text: the branch
choice and both match modes of `compile_keyword_pattern` (lines 114-126). -/
def keywordMatches (kw text : String) : Bool :=
  let k := pyStrip kw
  if k == "" then false
  else if strHasSpaceOrHyphen k then containsSeq (lowerStr k) (lowerStr text)
  else wordMatchFrom (lowerStr k) none (lowerStr text)

/-- `pattern.search(text)` for one compiled theme pattern: some keyword of
the list matches. -/
def themeMatches (keywords : List String) (text : String) : Bool :=
  keywords.any (fun k => keywordMatches k text)

/-- `ALL_PATTERNS` (lines 128-132), in dict insertion order. -/
def ALL_THEMES : List (String × List String) :=
  [("length", LENGTH_KEYWORDS), ("grind", GRIND_KEYWORDS), ("value", VALUE_KEYWORDS)]

/-- Model of `_tag_themes` (lines 346-352). -/
def tagThemes (review_text : String) : List String :=
  (ALL_THEMES.filter (fun p => themeMatches p.2 review_text)).map (fun p => p.1)

/-! ### Sentiment (`src/app.py` lines 354-382)

`tok` stands in for `nltk.sent_tokenize` and `pol` for the VADER compound
score, both opaque collaborators (see the header). -/

/-- Model of `extract_time_sentiment_text` (lines 354-371): keep only the
sentences matching some theme pattern, else fall back to the whole text;
blank input becomes empty. -/
def extract_time_sentiment_text (tok : String → List String)
    (review_text : String) : String :=
  if pyStrip review_text == "" then ""
  else
    let sentences := tok review_text
    let matched := sentences.filter (fun s => ALL_THEMES.any (fun p => themeMatches p.2 s))
    if matched.isEmpty then review_text
    else pyStrip (String.intercalate " " matched)

/-- Model of `get_review_sentiment_for_time_context` (lines 373-382). -/
def get_review_sentiment_for_time_context (tok : String → List String)
    (pol : String → ℚ) (review_text : String) : String × ℚ :=
  let text := extract_time_sentiment_text tok review_text
  let compound := pol text
  if POSITIVE_THRESHOLD ≤ compound then ("Positive", compound)
  else if compound ≤ NEGATIVE_THRESHOLD then ("Negative", compound)
  else ("Neutral", compound)

/-! ### Review records and aggregation (`src/app.py` lines 384-456) -/

/-- One review as stored in `all_reviews` (built at lines 583-591). -/
structure ReviewRecord where
  review_text : String
  playtime_hours : ℚ
  sentiment_label : String
  sentiment_compound : ℚ
  theme_tags : List String
deriving DecidableEq, Repr

/-- The result of `analyze_theme_reviews`. -/
structure ThemeAnalysis where
  positive_count : ℕ
  negative_count : ℕ
  neutral_count : ℕ
  total_found : ℕ
  positive_percent : ℚ
  negative_percent : ℚ
deriving DecidableEq, Repr

/-- Model of `analyze_theme_reviews` (lines 384-415).  The single
if/elif/else counting loop of the source computes exactly the three counts
below (a record whose label is `"Positive"` is never also counted negative,
and everything else is neutral). -/
def analyze_theme_reviews (review_list : List ReviewRecord) : ThemeAnalysis :=
  let pos := review_list.countP (fun r => r.sentiment_label == "Positive")
  let neg := review_list.countP (fun r => r.sentiment_label == "Negative")
  let neu := review_list.countP
    (fun r => !(r.sentiment_label == "Positive") && !(r.sentiment_label == "Negative"))
  let pn_total := pos + neg
  let pos_pct : ℚ := if 0 < pn_total then ((pos : ℚ) / (pn_total : ℚ)) * 100 else 0
  let neg_pct : ℚ := if 0 < pn_total then ((neg : ℚ) / (pn_total : ℚ)) * 100 else 0
  { positive_count := pos
    negative_count := neg
    neutral_count := neu
    total_found := pos + neg + neu
    positive_percent := pyRound 2 pos_pct
    negative_percent := pyRound 2 neg_pct }

/-- The result of `calculate_playtime_distribution`. -/
structure PlaytimeDistribution where
  median_hours : ℚ
  percentile_25th : ℚ
  percentile_75th : ℚ
  interpretation : String
  histogram_buckets : List ℕ
  histogram_bins_hours : List String
deriving DecidableEq, Repr

/-- Ascending sort of rationals (numpy sorts before taking order statistics;
any sort gives the same sorted list). -/
def sortQ (l : List ℚ) : List ℚ :=
  List.insertionSort (fun a b : ℚ => a ≤ b) l

/-- `np.median` of a nonempty sample: middle element, or the mean of the two
middle elements. -/
def npMedian (l : List ℚ) : ℚ :=
  let s := sortQ l
  let n := s.length
  if n == 0 then 0
  else if n % 2 == 1 then s.getD (n / 2) 0
  else (s.getD (n / 2 - 1) 0 + s.getD (n / 2) 0) / 2

/-- `np.percentile` with the default linear interpolation: index
`h = p/100 * (n-1)`, interpolating between the two adjacent order
statistics. -/
def npPercentile (l : List ℚ) (p : ℚ) : ℚ :=
  let s := sortQ l
  let n := s.length
  if n == 0 then 0
  else
    let h : ℚ := p / 100 * ((n : ℚ) - 1)
    let lo : ℕ := (Int.floor h).toNat
    let hi : ℕ := min (lo + 1) (n - 1)
    let aLo := s.getD lo 0
    let aHi := s.getD hi 0
    aLo + (h - (lo : ℚ)) * (aHi - aLo)

/-- Bucket counts of `np.histogram` for a valid (non-decreasing) edge list:
every bucket is half-open `[e_i, e_{i+1})` except the last, which is closed. -/
def histCounts (values : List ℚ) : List ℚ → List ℕ
  | [] => []
  | [_] => []
  | a :: b :: rest =>
    (if rest.isEmpty then values.countP (fun x => a ≤ x && x ≤ b)
     else values.countP (fun x => a ≤ x && x < b)) :: histCounts values (b :: rest)

/-- Model of `np.histogram(arr, bins=edges)` per its documented contract: the
edges must be monotonically non-decreasing, otherwise numpy raises
`ValueError`; values outside the outer edges are not counted. -/
def npHistogram (values : List ℚ) (edges : List ℚ) : Except String (List ℕ) :=
  if (edges.zip edges.tail).all (fun ab => ab.1 ≤ ab.2) then
    Except.ok (histCounts values edges)
  else
    Except.error "ValueError: bins must increase monotonically"

/-- Model of `calculate_playtime_distribution` (lines 417-456).  The
`Except` propagates the `ValueError` that `np.histogram` raises at line 440
when the bin edges are not monotone (which happens whenever
`max(playtimes) + 1 < 100`); in the service that exception escapes the
route handler. -/
def calculate_playtime_distribution (all_reviews : List ReviewRecord) :
    Except String PlaytimeDistribution :=
  let playtimes := (all_reviews.map (fun r => r.playtime_hours)).filter (fun x => 0 < x)
  if playtimes.isEmpty then
    Except.ok
      { median_hours := 0
        percentile_25th := 0
        percentile_75th := 0
        interpretation := "Not enough data with recorded playtime to analyse distribution."
        histogram_buckets := [0, 0, 0, 0, 0, 0, 0]
        histogram_bins_hours := ["<1", "1–5", "5–10", "10–20", "20–50", "50–100", "100+"] }
  else
    let median := npMedian playtimes
    let p25 := npPercentile playtimes 25
    let p75 := npPercentile playtimes 75
    let mx := playtimes.foldl max 0
    let bins : List ℚ := [0, 1, 5, 10, 20, 50, 100, mx + 1]
    match npHistogram playtimes bins with
    | Except.error e => Except.error e
    | Except.ok hist =>
      let interp :=
        if 50 < p75 ∧ 10 < median then
          "Players show high dedication, with the middle 50% spending over 10 hours."
        else if 10 < p75 ∧ median < 5 then
          "Highly variable experience; many play briefly, but a significant core invests substantial time."
        else
          "The majority of players spend moderate time in the game."
      Except.ok
        { median_hours := pyRound 2 median
          percentile_25th := pyRound 2 p25
          percentile_75th := pyRound 2 p75
          interpretation := interp
          histogram_buckets := hist
          histogram_bins_hours := ["<1", "1–5", "5–10", "10–20", "20–50", "50–100", "100+"] }

/-! ### The review cache (`src/app.py` lines 137-253)

`TEMP_REVIEW_CACHE` is modelled as an insertion-ordered association list
(see the header).  `CacheEntry` is the dict built at lines 495-504 minus the
`payload` field (not modelled, see the header). -/

/-- A cache entry (`src/app.py` lines 495-504).  `steam_total_reviews` is
`none` for Python `None`; every value the service ever stores there is a
non-negative int (`_safe_total_reviews_from_payload` filters negatives, the
other write stores a length), hence `ℕ`. -/
structure CacheEntry where
  created_at : ℚ
  cursor : Option String
  all_reviews : List ReviewRecord
  steam_total_reviews : Option ℕ
  effective_target_count : ℕ
  reviews : List ReviewRecord
deriving DecidableEq, Repr

/-- The cache, an insertion-ordered association list. -/
abbrev CacheDict := List (String × CacheEntry)

/-- Dict lookup: the value at the first (for a dict: only) occurrence of the
key. -/
def dictGet (d : CacheDict) (k : String) : Option CacheEntry :=
  match d with
  | [] => none
  | (k2, v) :: rest => if k2 == k then some v else dictGet rest k

/-- Dict item assignment `d[k] = v`: replace in place if the key is present,
else append (Python dicts preserve insertion order). -/
def dictSet (d : CacheDict) (k : String) (v : CacheEntry) : CacheDict :=
  if d.any (fun kv => kv.1 == k) then
    d.map (fun kv => if kv.1 == k then (k, v) else kv)
  else
    d ++ [(k, v)]

/-- Dict `pop(k, None)`: drops the entry with key `k`, if present. -/
def dictPop (d : CacheDict) (k : String) : CacheDict :=
  d.eraseP (fun kv => kv.1 == k)

/-- The v2 (count-free) key, `CACHE_KEY_V2` (line 141). -/
def v2Key (app_id review_filter language : String) : String :=
  app_id ++ "_" ++ review_filter ++ "_" ++ language

/-- The v1 (count-bearing) key, `CACHE_KEY_V1` (line 140). -/
def v1Key (app_id : String) (review_count : ℤ) (review_filter language : String) : String :=
  app_id ++ "_" ++ toString review_count ++ "_" ++ review_filter ++ "_" ++ language

/-- Model of `_get_cached_entry` (lines 213-230): try the v2 key first, then
the v1 key, which exists exactly when a count hint was supplied. -/
def getCachedEntry (d : CacheDict) (app_id review_filter language : String)
    (review_count_hint : Option ℤ) : Option CacheEntry :=
  match dictGet d (v2Key app_id review_filter language) with
  | some entry => some entry
  | none =>
    match review_count_hint with
    | some c => dictGet d (v1Key app_id c review_filter language)
    | none => none

/-- Model of `_store_entry_under_keys` (lines 232-253): the same entry is
stored under the v2 key and under the v1 keys built from the requested and
from the effective count. -/
def storeEntryUnderKeys (d : CacheDict) (entry : CacheEntry)
    (app_id review_filter language : String) (requested_count effective_count : ℤ) :
    CacheDict :=
  let d1 := dictSet d (v2Key app_id review_filter language) entry
  let d2 := dictSet d1 (v1Key app_id requested_count review_filter language) entry
  dictSet d2 (v1Key app_id effective_count review_filter language) entry

/-- The expiry pass of `_purge_cache` (lines 156-163): collecting every key
whose entry has `now - created_at > CACHE_TTL_SECONDS` and popping each of
them is, on a dict, exactly this filter. -/
def purgeExpired (now : ℚ) (d : CacheDict) : CacheDict :=
  d.filter (fun kv => decide (now - kv.2.created_at ≤ CACHE_TTL_SECONDS))

/-- Sort order used at line 167: by `created_at`. -/
def byCreatedAt (a b : String × CacheEntry) : Prop :=
  a.2.created_at ≤ b.2.created_at

instance : DecidableRel byCreatedAt :=
  fun a b => inferInstanceAs (Decidable (a.2.created_at ≤ b.2.created_at))

instance : IsTotal (String × CacheEntry) byCreatedAt :=
  ⟨fun a b => le_total a.2.created_at b.2.created_at⟩

instance : IsTrans (String × CacheEntry) byCreatedAt :=
  ⟨fun _ _ _ h1 h2 => le_trans h1 h2⟩

/-- The size pass of `_purge_cache` (lines 165-170): when more than
`CACHE_MAX_ITEMS` entries remain, sort the items by `created_at` (a stable
sort, like Python's) and pop the first `len - CACHE_MAX_ITEMS` of them. -/
def purgeSize (d : CacheDict) : CacheDict :=
  if CACHE_MAX_ITEMS < d.length then
    ((List.insertionSort byCreatedAt d).take (d.length - CACHE_MAX_ITEMS)).foldl
      (fun acc kv => dictPop acc kv.1) d
  else d

/-- Model of `_purge_cache` (lines 155-170): expiry pass, then size pass. -/
def purgeCache (now : ℚ) (d : CacheDict) : CacheDict :=
  purgeSize (purgeExpired now d)

/-! ### The upstream page shape and the collection loop
(`src/app.py` lines 307-344 and 506-605) -/

/-- One review as delivered by the upstream page; the `author` sub-dict is
flattened to its two playtime fields (`author.get("playtime_at_review",
author.get("playtime_forever", 0)) or 0`, line 577). -/
structure SteamReview where
  playtime_at_review : Option ℚ
  playtime_forever : Option ℚ
  review : Option String
deriving DecidableEq, Repr

/-- One upstream page as returned by `_steam_get_with_retry` (already parsed
JSON): the `success` flag, `query_summary.total_reviews` (if present, any
int), the review list and the continuation cursor. -/
structure SteamPayload where
  success : ℤ
  query_total_reviews : Option ℤ
  reviews : List SteamReview
  cursor : Option String
deriving DecidableEq, Repr

/-- Model of `_safe_total_reviews_from_payload` (lines 333-344): missing or
negative totals become `None`. -/
def safeTotalFromPayload (p : SteamPayload) : Option ℕ :=
  match p.query_total_reviews with
  | none => none
  | some tr => if tr < 0 then none else some tr.toNat

/-- Building one `all_reviews` record from an upstream review
(lines 576-591). -/
def mkRecord (tok : String → List String) (pol : String → ℚ)
    (r : SteamReview) : ReviewRecord :=
  let playtime_minutes : ℚ := r.playtime_at_review.getD (r.playtime_forever.getD 0)
  let review_text : String := r.review.getD ""
  let sc := get_review_sentiment_for_time_context tok pol review_text
  { review_text := review_text
    playtime_hours := pyRound 1 (playtime_minutes / 60)
    sentiment_label := sc.1
    sentiment_compound := pyRound 4 sc.2
    theme_tags := tagThemes review_text }

/-- `pages_needed` (lines 524 and 564):
`need // PAGE + (1 if need % PAGE else 0)`. -/
def pagesFor (need : ℕ) : ℕ :=
  need / STEAM_REVIEWS_PER_PAGE + (if need % STEAM_REVIEWS_PER_PAGE ≠ 0 then 1 else 0)

/-- The mutable state of the `while` loop at lines 506-597: the entry fields
the loop writes (`all_reviews`, `steam_total_reviews`,
`effective_target_count`), the two cursor variables (`params["cursor"]`,
which the loop advances, and the local `cursor`, which is only assigned at
line 595), and the loop-control variables.  `trace` is observational only:
it records, in order, the cursor of every page actually requested from the
upstream, and nothing in the loop reads it. -/
structure LoopState where
  all_reviews : List ReviewRecord
  params_cursor : Option String
  cursor : Option String
  steam_total : Option ℕ
  target_count : ℕ
  effective_target_count : ℕ
  pages_needed : ℕ
  pages_fetched : ℕ
  seen_cursors : List String
  first_page_seen : Bool
  trace : List String
deriving DecidableEq, Repr

/-- Lines 547-549: record the cursor in `seen_cursors`, count the page,
and note the request in the observational trace. -/
def bumpFetched (cur : String) (st : LoopState) : LoopState :=
  { st with seen_cursors := cur :: st.seen_cursors,
            pages_fetched := st.pages_fetched + 1,
            trace := st.trace ++ [cur] }

/-- Lines 555-564: on the first fetched page of this request, record the
upstream-reported total (when present) and recompute the effective target
and the page budget from it. -/
def applyFirstPage (review_count_req : ℕ) (payload : SteamPayload) (st : LoopState) :
    LoopState :=
  if st.first_page_seen then st
  else
    match safeTotalFromPayload payload with
    | none => { st with first_page_seen := true }
    | some t =>
      let tc := natClamp (min review_count_req t) MIN_REVIEW_COUNT MAX_REVIEW_COUNT
      { st with first_page_seen := true,
                steam_total := some t,
                target_count := tc,
                effective_target_count := tc,
                pages_needed := pagesFor (tc - st.all_reviews.length) }

/-- Lines 572-591: append the tagged and scored records of the page, stopping
at the target count. -/
def appendPage (tok : String → List String) (pol : String → ℚ)
    (payload : SteamPayload) (st : LoopState) : LoopState :=
  { st with all_reviews := st.all_reviews ++
      (payload.reviews.take (st.target_count - st.all_reviews.length)).map (mkRecord tok pol) }

/-- Lines 593-595: advance `params["cursor"]` and the local `cursor` to the
returned cursor, degenerate cursors becoming `None`. -/
def advanceCursor (payload : SteamPayload) (st : LoopState) : LoopState :=
  let pc : Option String :=
    match payload.cursor with
    | some c => if cursorOkStr c then some c else none
    | none => none
  { st with params_cursor := pc, cursor := pc }

/-- One pass through the loop body (lines 539-597).  `.inl` is a final state
(the `while` condition failed or a `break` ran), `.inr` is the state carried
into the next iteration. -/
def loopStep (fetch : String → Option SteamPayload) (tok : String → List String)
    (pol : String → ℚ) (review_count_req : ℕ) (st : LoopState) :
    LoopState ⊕ LoopState :=
  if ¬ (st.pages_fetched < st.pages_needed ∧ st.all_reviews.length < st.target_count ∧
        cursorOk st.params_cursor = true) then
    Sum.inl st
  else
    match st.params_cursor with
    | none => Sum.inl st
    | some cur =>
      if cur ∈ st.seen_cursors then Sum.inl st
      else
        match fetch cur with
        | none => Sum.inl (bumpFetched cur st)
        | some payload =>
          if payload.success ≠ 1 then Sum.inl (bumpFetched cur st)
          else
            let st2 := applyFirstPage review_count_req payload (bumpFetched cur st)
            if payload.reviews.isEmpty then
              Sum.inl { st2 with params_cursor := none }
            else
              Sum.inr (advanceCursor payload (appendPage tok pol payload st2))

theorem applyFirstPage_of_seen (review_count_req : ℕ) (payload : SteamPayload)
    (st : LoopState) (h : st.first_page_seen = true) :
    applyFirstPage review_count_req payload st = st := by
  unfold applyFirstPage
  simp [h]

theorem applyFirstPage_of_total_none (review_count_req : ℕ) (payload : SteamPayload)
    (st : LoopState) (h : st.first_page_seen = false)
    (ht : safeTotalFromPayload payload = none) :
    applyFirstPage review_count_req payload st = { st with first_page_seen := true } := by
  unfold applyFirstPage
  simp [h, ht]

theorem applyFirstPage_of_total_some (review_count_req : ℕ) (payload : SteamPayload)
    (st : LoopState) (t : ℕ) (h : st.first_page_seen = false)
    (ht : safeTotalFromPayload payload = some t) :
    applyFirstPage review_count_req payload st =
      { st with first_page_seen := true,
                steam_total := some t,
                target_count := natClamp (min review_count_req t) MIN_REVIEW_COUNT MAX_REVIEW_COUNT,
                effective_target_count := natClamp (min review_count_req t) MIN_REVIEW_COUNT MAX_REVIEW_COUNT,
                pages_needed := pagesFor
                  (natClamp (min review_count_req t) MIN_REVIEW_COUNT MAX_REVIEW_COUNT -
                    st.all_reviews.length) } := by
  unfold applyFirstPage
  simp [h, ht]

theorem applyFirstPage_first_page_seen (review_count_req : ℕ) (payload : SteamPayload)
    (st : LoopState) :
    (applyFirstPage review_count_req payload st).first_page_seen = true := by
  unfold applyFirstPage
  split
  · assumption
  · split <;> rfl

theorem applyFirstPage_stable (review_count_req : ℕ) (payload : SteamPayload)
    (st : LoopState) :
    (applyFirstPage review_count_req payload st).pages_fetched = st.pages_fetched ∧
    (applyFirstPage review_count_req payload st).trace = st.trace ∧
    (applyFirstPage review_count_req payload st).seen_cursors = st.seen_cursors ∧
    (applyFirstPage review_count_req payload st).all_reviews = st.all_reviews ∧
    (applyFirstPage review_count_req payload st).params_cursor = st.params_cursor := by
  unfold applyFirstPage
  split
  · exact ⟨rfl, rfl, rfl, rfl, rfl⟩
  · split <;> exact ⟨rfl, rfl, rfl, rfl, rfl⟩

/-- Facts about a continuing step, used for termination: the page count
advanced, the first page has been seen, and after the first page
`pages_needed` is frozen. -/
theorem loopStep_inr (fetch : String → Option SteamPayload) (tok : String → List String)
    (pol : String → ℚ) (review_count_req : ℕ) (st st' : LoopState)
    (h : loopStep fetch tok pol review_count_req st = Sum.inr st') :
    st'.pages_fetched = st.pages_fetched + 1 ∧ st'.first_page_seen = true ∧
      (st.first_page_seen = true → st'.pages_needed = st.pages_needed) ∧
      st.pages_fetched < st.pages_needed := by
  unfold loopStep at h
  split at h
  · exact absurd h (by simp)
  next hguard =>
  rw [not_not] at hguard
  split at h
  · exact absurd h (by simp)
  next cur hcur =>
  split at h
  · exact absurd h (by simp)
  next hseen =>
  split at h
  · exact absurd h (by simp)
  next payload hfetch =>
  split at h
  · exact absurd h (by simp)
  next hsucc =>
  split at h
  · exact absurd h (by simp)
  next hrev =>
  obtain rfl := Sum.inr.inj h
  refine ⟨?_, ?_, ?_, hguard.1⟩
  · simp [advanceCursor, appendPage, (applyFirstPage_stable _ _ _).1, bumpFetched]
  · simp [advanceCursor, appendPage, applyFirstPage_first_page_seen]
  · intro hfps
    show (advanceCursor payload (appendPage tok pol payload
      (applyFirstPage review_count_req payload (bumpFetched cur st)))).pages_needed = _
    rw [applyFirstPage_of_seen _ _ _ (show (bumpFetched cur st).first_page_seen = true from hfps)]
    simp [advanceCursor, appendPage, bumpFetched]

/-- The `while` loop at lines 539-597: iterate `loopStep` until it stops.
Termination mirrors the code: every iteration advances `pages_fetched`, and
`pages_needed` can change only on the first fetched page (after which
`first_page_seen` blocks further changes), so the pair
(first page still pending, remaining page budget) decreases
lexicographically. -/
def collectLoop (fetch : String → Option SteamPayload) (tok : String → List String)
    (pol : String → ℚ) (review_count_req : ℕ) (st : LoopState) : LoopState :=
  match h : loopStep fetch tok pol review_count_req st with
  | Sum.inl stF => stF
  | Sum.inr st' => collectLoop fetch tok pol review_count_req st'
termination_by ((if st.first_page_seen then 0 else 1), st.pages_needed - st.pages_fetched)
decreasing_by
  obtain ⟨h1, h2, h3, h4⟩ := loopStep_inr _ _ _ _ _ _ h
  cases hfps : st.first_page_seen with
  | false =>
    exact Prod.Lex.left _ _ (by simp [h2, hfps])
  | true =>
    have hpn := h3 hfps
    simp only [h2, hfps, if_true]
    exact Prod.Lex.right _ (by omega)

/-! ### The `/analyze` route (`src/app.py` lines 465-728)

`analyzeCore` models the body once the request fields are parsed and the
purge pass has run; `analyzeRequest` adds the parameter normalization and the
purge.  The response aggregates (`thematic_scores`, `playtime_distribution`,
`appdetails`) are computed by the standalone functions modelled above and do
not feed back into the cache logic, so the outcome below carries the fields
the claims are about: the stored entry, the updated cache, the note and the
counts. -/

/-- A fresh cache entry (lines 495-504). -/
def freshEntry (now : ℚ) (review_count_req : ℕ) : CacheEntry :=
  { created_at := now
    cursor := some "*"
    all_reviews := []
    steam_total_reviews := none
    effective_target_count := review_count_req
    reviews := [] }

/-- Lines 488-504: fetch the cached entry (trying both key styles, with the
requested count as hint), discard it when expired, else create a fresh
one. -/
def resolveEntry (now : ℚ) (cache : CacheDict) (app_id review_filter language : String)
    (review_count_req : ℕ) : CacheEntry :=
  match getCachedEntry cache app_id review_filter language (some (review_count_req : ℤ)) with
  | some entry =>
    if CACHE_TTL_SECONDS < now - entry.created_at then freshEntry now review_count_req
    else entry
  | none => freshEntry now review_count_req

/-- Line 511: `entry.get("cursor", "*") or "*"` — `None` and the empty
string both become the fresh-start token. -/
def initCursor (entry : CacheEntry) : String :=
  match entry.cursor with
  | none => "*"
  | some s => if s == "" then "*" else s

/-- What an `/analyze` request leaves behind (the parts the claims are
about). -/
structure AnalyzeOutcome where
  entry : CacheEntry
  cache : CacheDict
  note : Option String
  review_count_requested : ℕ
  analysed_count : ℕ
  effective_target : ℕ
  can_fetch_more : Bool
deriving Repr

/-- Lines 513-519: the target count at the start of a request, recomputed
from the stored total when one is known. -/
def analyzeTarget0 (review_count_req : ℕ) (entry0 : CacheEntry) : ℕ :=
  match entry0.steam_total_reviews with
  | some t => natClamp (min review_count_req t) MIN_REVIEW_COUNT MAX_REVIEW_COUNT
  | none => review_count_req

/-- The state the collection loop starts from (lines 506-537). -/
def analyzeLoopStart (review_count_req : ℕ) (entry0 : CacheEntry) : LoopState :=
  { all_reviews := entry0.all_reviews
    params_cursor := some (initCursor entry0)
    cursor := some (initCursor entry0)
    steam_total := entry0.steam_total_reviews
    target_count := analyzeTarget0 review_count_req entry0
    effective_target_count := analyzeTarget0 review_count_req entry0
    pages_needed :=
      pagesFor (analyzeTarget0 review_count_req entry0 - entry0.all_reviews.length)
    pages_fetched := 0
    seen_cursors := []
    first_page_seen := false
    trace := [] }

/-- Model of the `/analyze` body after parsing and purge
(lines 487-726). -/
def analyzeCore (fetch : String → Option SteamPayload) (tok : String → List String)
    (pol : String → ℚ) (now : ℚ) (cache : CacheDict)
    (app_id review_filter language : String) (review_count_req : ℕ) : AnalyzeOutcome :=
  let entry0 := resolveEntry now cache app_id review_filter language review_count_req
  let all0 := entry0.all_reviews
  let cursor0 := initCursor entry0
  -- lines 513-519: recompute the target when a total is already known
  let target0 : ℕ := analyzeTarget0 review_count_req entry0
  let entry1 := { entry0 with effective_target_count := target0 }
  let need := target0 - all0.length
  -- lines 523-605: the collection loop and the write-back of its results
  let entry2 :=
    if 0 < need ∧ cursorOkStr cursor0 = true then
      let stF := collectLoop fetch tok pol review_count_req
        (analyzeLoopStart review_count_req entry0)
      let e := { entry1 with cursor := stF.cursor
                             created_at := now
                             all_reviews := stF.all_reviews
                             steam_total_reviews := stF.steam_total
                             effective_target_count := stF.effective_target_count }
      -- lines 603-605: infer the total once terminal, if Steam never gave one
      if e.steam_total_reviews = none ∧ cursorOk e.cursor = false then
        { e with steam_total_reviews := some e.all_reviews.length }
      else e
    else entry1
  -- lines 607-641: analysed slice, themed slice and the note
  let all := entry2.all_reviews
  let effective_target : ℕ := entry2.effective_target_count
  let analysed_count : ℕ := min effective_target all.length
  let reviews_used : List ReviewRecord := all.take analysed_count
  let themed_used : List ReviewRecord := reviews_used.filter (fun r => !r.theme_tags.isEmpty)
  let steam_total := entry2.steam_total_reviews
  let note0 : Option String :=
    match steam_total with
    | some t =>
      if t < review_count_req then
        some ("Steam reports only " ++ toString t ++
          " total reviews for this game with the selected filter/language.")
      else none
    | none => none
  let notePre : String := match note0 with | some s => s ++ " " | none => ""
  let note : Option String :=
    if analysed_count = 0 then
      some (notePre ++ "No reviews were returned by Steam for this filter/language.")
    else if themed_used.length = 0 then
      some (notePre ++ "No time-centric keywords were found in the " ++
        toString analysed_count ++ " reviews analysed.")
    else note0
  -- lines 711-726: final entry mutations and the store under all key forms
  let entry3 := { entry2 with reviews := themed_used, created_at := now }
  let cacheOut := storeEntryUnderKeys cache entry3 app_id review_filter language
    (review_count_req : ℤ)
    (if 0 < analysed_count then (analysed_count : ℤ) else (review_count_req : ℤ))
  { entry := entry3
    cache := cacheOut
    note := note
    review_count_requested := review_count_req
    analysed_count := analysed_count
    effective_target := effective_target
    can_fetch_more := cursorOk entry3.cursor && all.length < MAX_REVIEW_COUNT }

/-- Line 479-481 and 805-807: normalize the filter field. -/
def normalizeFilter (v : Option String) : String :=
  let s := pyLower (pyStrip (v.getD "recent"))
  if s == "recent" || s == "updated" || s == "all" then s else "recent"

/-- Line 483 and 809: normalize the language field. -/
def normalizeLanguage (v : Option String) : String :=
  let s := pyLower (pyStrip (v.getD "english"))
  if s == "" then "english" else s

/-- Model of the `/analyze` route (lines 465-728) for a request with a
non-empty `app_id`: parse and clamp the requested count, normalize filter
and language, purge the cache, then run the body. -/
def analyzeRequest (fetch : String → Option SteamPayload) (tok : String → List String)
    (pol : String → ℚ) (now : ℚ) (cache : CacheDict) (app_id : String)
    (countRaw : Option ℤ) (filterRaw langRaw : Option String) : AnalyzeOutcome :=
  let review_count_req : ℕ :=
    (intClamp (safeInt countRaw 1000) (MIN_REVIEW_COUNT : ℤ) (MAX_REVIEW_COUNT : ℤ)).toNat
  let review_filter := normalizeFilter filterRaw
  let language := normalizeLanguage langRaw
  analyzeCore fetch tok pol now (purgeCache now cache) app_id review_filter language
    review_count_req

/-! ### The `/reviews` and `/export` routes (`src/app.py` lines 799-958) -/

/-- The successful payload of `/reviews` (lines 870-882). -/
structure ReviewsPage where
  reviews : List ReviewRecord
  mode_returned : String
  total_available : ℕ
  themed_total_available : ℕ
  all_total_available : ℕ
  offset : ℕ
  limit : ℕ
  total_count_used_for_paging : ℕ
  effective_target_count : ℕ
deriving DecidableEq, Repr

/-- Model of `get_paginated_reviews` (lines 799-882); errors carry the HTTP
status and message.  The `themed_legacy` list read at lines 849-852 is never
used afterwards in the source and is omitted. -/
def reviewsRoute (now : ℚ) (cache : CacheDict) (appIdRaw : Option String)
    (offsetRaw limitRaw : Option ℤ) (filterRaw langRaw : Option String)
    (totalCountRaw : Option ℤ) (themedOnlyRaw fallbackRaw : Option String) :
    Except (ℕ × String) ReviewsPage :=
  let app_id := pyStrip (appIdRaw.getD "")
  let review_filter := normalizeFilter filterRaw
  let language := normalizeLanguage langRaw
  let total_count_hint : Option ℤ := totalCountRaw
  let themed_only := truthyFlag (some (themedOnlyRaw.getD "1")) true
  let fallback_to_all_if_none := truthyFlag (some (fallbackRaw.getD "1")) true
  if app_id == "" then Except.error (400, "Missing app_id parameter.")
  else
    let limit : ℕ := (intClamp (safeInt limitRaw (DEFAULT_REVIEW_CHUNK_SIZE : ℤ)) 1 200).toNat
    let offset : ℕ := (max 0 (safeInt offsetRaw 0)).toNat
    let cache1 := purgeCache now cache
    match getCachedEntry cache1 app_id review_filter language total_count_hint with
    | none => Except.error (404, "Analysis data not found. Please run /analyze first.")
    | some cached =>
      if CACHE_TTL_SECONDS < now - cached.created_at then
        Except.error (404, "Analysis cache expired. Please run /analyze again.")
      else
        let all_reviews := cached.all_reviews
        let effective_target :=
          natClamp cached.effective_target_count MIN_REVIEW_COUNT MAX_REVIEW_COUNT
        let total_count : ℕ :=
          match total_count_hint with
          | none => min effective_target all_reviews.length
          | some h =>
            if h ≤ 0 then min effective_target all_reviews.length
            else min ((intClamp h (MIN_REVIEW_COUNT : ℤ) (MAX_REVIEW_COUNT : ℤ)).toNat)
              all_reviews.length
        let reviews_used := all_reviews.take total_count
        let themed := reviews_used.filter (fun r => !r.theme_tags.isEmpty)
        let mode0 := if themed_only then "themed" else "all"
        let items0 := if themed_only then themed else reviews_used
        let useFallback := themed_only && fallback_to_all_if_none &&
          items0.isEmpty && !reviews_used.isEmpty
        let items := if useFallback then reviews_used else items0
        let mode_returned := if useFallback then "all_fallback" else mode0
        Except.ok
          { reviews := (items.drop offset).take limit
            mode_returned := mode_returned
            total_available := items.length
            themed_total_available := themed.length
            all_total_available := reviews_used.length
            offset := offset
            limit := limit
            total_count_used_for_paging := total_count
            effective_target_count := effective_target }

/-- The data behind the `/export` CSV (lines 926-948); the CSV text itself is
serialization and is not modelled (see the header). -/
structure ExportData where
  rows : List ReviewRecord
  mode_used : String
  total_count : ℕ
deriving DecidableEq, Repr

/-- Model of `export_reviews_csv` (lines 884-958) up to CSV serialization. -/
def exportRoute (now : ℚ) (cache : CacheDict) (appIdRaw : Option String)
    (filterRaw langRaw : Option String) (totalCountRaw : Option ℤ)
    (themedOnlyRaw fallbackRaw : Option String) :
    Except (ℕ × String) ExportData :=
  let app_id := pyStrip (appIdRaw.getD "")
  let review_filter := normalizeFilter filterRaw
  let language := normalizeLanguage langRaw
  let total_count_hint : Option ℤ := totalCountRaw
  let themed_only := truthyFlag (some (themedOnlyRaw.getD "1")) true
  let fallback_to_all_if_none := truthyFlag (some (fallbackRaw.getD "1")) true
  if app_id == "" then Except.error (400, "Missing app_id parameter.")
  else
    let cache1 := purgeCache now cache
    match getCachedEntry cache1 app_id review_filter language total_count_hint with
    | none => Except.error (404, "Review data not found in cache. Please run /analyze first.")
    | some cached =>
      if CACHE_TTL_SECONDS < now - cached.created_at then
        Except.error (404, "Analysis cache expired. Please run /analyze again.")
      else
        let all_reviews := cached.all_reviews
        let effective_target :=
          natClamp cached.effective_target_count MIN_REVIEW_COUNT MAX_REVIEW_COUNT
        let total_count : ℕ :=
          match total_count_hint with
          | none => min effective_target all_reviews.length
          | some h =>
            if h ≤ 0 then min effective_target all_reviews.length
            else min ((intClamp h (MIN_REVIEW_COUNT : ℤ) (MAX_REVIEW_COUNT : ℤ)).toNat)
              all_reviews.length
        let reviews_used := all_reviews.take total_count
        let themed := reviews_used.filter (fun r => !r.theme_tags.isEmpty)
        let rows0 := if themed_only then themed else reviews_used
        let mode0 := if themed_only then "themed" else "all"
        let useFallback := themed_only && fallback_to_all_if_none &&
          rows0.isEmpty && !reviews_used.isEmpty
        let rows := if useFallback then reviews_used else rows0
        let mode_used := if useFallback then "all_fallback" else mode0
        Except.ok { rows := rows, mode_used := mode_used, total_count := total_count }

/-! ### Claim theorems and the lemmas supporting them -/

theorem negative_lt_positive_threshold : NEGATIVE_THRESHOLD < POSITIVE_THRESHOLD := by
  norm_num [NEGATIVE_THRESHOLD, POSITIVE_THRESHOLD]

/-- C8: for every input text, with the polarity model opaque,
`get_review_sentiment_for_time_context` labels Positive exactly when the
compound is at least `POSITIVE_THRESHOLD`, Negative exactly when it is at
most `NEGATIVE_THRESHOLD`, and Neutral otherwise; the compound returned is
the polarity of the extracted text, and the thresholds are the fixed module
constants. -/
theorem c8_sentiment_classification (tok : String → List String) (pol : String → ℚ)
    (text : String) :
    (get_review_sentiment_for_time_context tok pol text).2 =
      pol (extract_time_sentiment_text tok text) ∧
    ((get_review_sentiment_for_time_context tok pol text).1 = "Positive" ↔
      POSITIVE_THRESHOLD ≤ (get_review_sentiment_for_time_context tok pol text).2) ∧
    ((get_review_sentiment_for_time_context tok pol text).1 = "Negative" ↔
      (get_review_sentiment_for_time_context tok pol text).2 ≤ NEGATIVE_THRESHOLD) ∧
    ((get_review_sentiment_for_time_context tok pol text).1 = "Neutral" ↔
      (NEGATIVE_THRESHOLD < (get_review_sentiment_for_time_context tok pol text).2 ∧
        (get_review_sentiment_for_time_context tok pol text).2 < POSITIVE_THRESHOLD)) := by
  have hlt := negative_lt_positive_threshold
  simp only [get_review_sentiment_for_time_context]
  set c := pol (extract_time_sentiment_text tok text) with hc
  split_ifs with h1 h2
  · refine ⟨rfl, by simp [h1], ?_, ?_⟩
    · constructor
      · intro h
        simp at h
      · intro h
        linarith
    · constructor
      · intro h
        simp at h
      · intro h
        linarith [h.2]
  · refine ⟨rfl, ?_, by simp [h2], ?_⟩
    · constructor
      · intro h
        simp at h
      · intro h
        linarith
    · constructor
      · intro h
        simp at h
      · intro h
        linarith [h.1]
  · push_neg at h1 h2
    refine ⟨rfl, ?_, ?_, by simp [h1, h2]⟩
    · constructor
      · intro h
        simp at h
      · intro h
        linarith
    · constructor
      · intro h
        simp at h
      · intro h
        linarith

theorem rat_floor_eq_floor (q : ℚ) : Rat.floor q = ⌊q⌋ := by
  rw [Rat.floor_def, Rat.floor_def']

theorem roundHalfEven_intCast (n : ℤ) : roundHalfEven (n : ℚ) = n := by
  unfold roundHalfEven
  rw [rat_floor_eq_floor]
  norm_num

theorem pyRound_intCast (d : ℕ) (n : ℤ) : pyRound d (n : ℚ) = n := by
  unfold pyRound
  have h : ((n : ℚ) * (10:ℚ)^d) = ((n * 10^d : ℤ) : ℚ) := by push_cast; ring
  rw [h, roundHalfEven_intCast]
  push_cast
  have h10 : ((10:ℚ)^d) ≠ 0 := by positivity
  field_simp

/-- Test fixture: a record with a given sentiment label. -/
def labelledRecord (label : String) : ReviewRecord :=
  { review_text := ""
    playtime_hours := 0
    sentiment_label := label
    sentiment_compound := 0
    theme_tags := [] }

theorem counts_partition (records : List ReviewRecord) :
    records.countP (fun r => r.sentiment_label == "Positive") +
      records.countP (fun r => r.sentiment_label == "Negative") +
      records.countP (fun r => !(r.sentiment_label == "Positive") &&
        !(r.sentiment_label == "Negative")) = records.length := by
  induction records with
  | nil => simp
  | cons r t ih =>
    by_cases hp : r.sentiment_label = "Positive"
    · simp [List.countP_cons, hp]
      omega
    · by_cases hn : r.sentiment_label = "Negative"
      · simp [List.countP_cons, hp, hn]
        omega
      · simp [List.countP_cons, hp, hn]
        omega

/-- C5: `analyze_theme_reviews` counts positives, negatives and neutrals,
reports `total_found` as the full list length, computes both percentages
over the `positive + negative` denominator only, and returns exactly `0.0`
for both when that denominator is zero; on 6 Positive + 4 Negative records
the split is 60.0 / 40.0, and an all-neutral list gives 0.0 / 0.0 with
`total_found` the full count. -/
theorem c5_percentages :
    (∀ records : List ReviewRecord,
      (analyze_theme_reviews records).positive_count =
        records.countP (fun r => r.sentiment_label == "Positive") ∧
      (analyze_theme_reviews records).negative_count =
        records.countP (fun r => r.sentiment_label == "Negative") ∧
      (analyze_theme_reviews records).positive_count +
        (analyze_theme_reviews records).negative_count +
        (analyze_theme_reviews records).neutral_count = records.length ∧
      (analyze_theme_reviews records).total_found = records.length ∧
      (analyze_theme_reviews records).positive_percent =
        (if (analyze_theme_reviews records).positive_count +
            (analyze_theme_reviews records).negative_count = 0 then 0
         else pyRound 2
           ((((analyze_theme_reviews records).positive_count : ℚ) /
             (((analyze_theme_reviews records).positive_count : ℚ) +
              ((analyze_theme_reviews records).negative_count : ℚ))) * 100)) ∧
      (analyze_theme_reviews records).negative_percent =
        (if (analyze_theme_reviews records).positive_count +
            (analyze_theme_reviews records).negative_count = 0 then 0
         else pyRound 2
           ((((analyze_theme_reviews records).negative_count : ℚ) /
             (((analyze_theme_reviews records).positive_count : ℚ) +
              ((analyze_theme_reviews records).negative_count : ℚ))) * 100))) ∧
    (analyze_theme_reviews (List.replicate 6 (labelledRecord "Positive") ++
        List.replicate 4 (labelledRecord "Negative"))).positive_percent = 60 ∧
    (analyze_theme_reviews (List.replicate 6 (labelledRecord "Positive") ++
        List.replicate 4 (labelledRecord "Negative"))).negative_percent = 40 ∧
    (analyze_theme_reviews (List.replicate 5 (labelledRecord "Neutral"))).positive_percent
      = 0 ∧
    (analyze_theme_reviews (List.replicate 5 (labelledRecord "Neutral"))).negative_percent
      = 0 ∧
    (analyze_theme_reviews (List.replicate 5 (labelledRecord "Neutral"))).total_found = 5 := by
  have h60 := pyRound_intCast 2 60
  have h40 := pyRound_intCast 2 40
  have h0 := pyRound_intCast 2 0
  norm_num at h60 h40 h0
  refine ⟨?_,
    by norm_num +decide [analyze_theme_reviews, labelledRecord, List.replicate_succ,
      List.countP_cons, List.countP_append, beq_iff_eq]; exact h60,
    by norm_num +decide [analyze_theme_reviews, labelledRecord, List.replicate_succ,
      List.countP_cons, List.countP_append, beq_iff_eq]; exact h40,
    by norm_num +decide [analyze_theme_reviews, labelledRecord, List.replicate_succ,
      List.countP_cons, List.countP_append, beq_iff_eq]; exact h0,
    by norm_num +decide [analyze_theme_reviews, labelledRecord, List.replicate_succ,
      List.countP_cons, List.countP_append, beq_iff_eq]; exact h0,
    by norm_num +decide [analyze_theme_reviews, labelledRecord, List.replicate_succ,
      List.countP_cons, List.countP_append, beq_iff_eq]⟩
  intro records
  refine ⟨rfl, rfl, ?_, ?_, ?_, ?_⟩
  · exact counts_partition records
  · exact counts_partition records
  · simp only [analyze_theme_reviews]
    split_ifs with h1 h2 <;>
      first
        | omega
        | exact h0
        | (congr 1; push_cast; ring)
  · simp only [analyze_theme_reviews]
    split_ifs with h1 h2 <;>
      first
        | omega
        | exact h0
        | (congr 1; push_cast; ring)

theorem dictGet_cons_eq (k1 k : String) (v1 : CacheEntry) (t : CacheDict)
    (h : k1 = k) : dictGet ((k1, v1) :: t) k = some v1 := by
  show (if (k1 == k) = true then some v1 else dictGet t k) = some v1
  rw [if_pos (by simp [h])]

theorem dictGet_cons_ne (k1 k : String) (v1 : CacheEntry) (t : CacheDict)
    (h : k1 ≠ k) : dictGet ((k1, v1) :: t) k = dictGet t k := by
  show (if (k1 == k) = true then some v1 else dictGet t k) = dictGet t k
  rw [beq_eq_false_iff_ne.mpr h]
  simp

theorem dictGet_replace_ne (d : CacheDict) (k k2 : String) (v : CacheEntry)
    (h : k2 ≠ k) :
    dictGet (d.map (fun kv => if kv.1 == k then (k, v) else kv)) k2 = dictGet d k2 := by
  induction d with
  | nil => rfl
  | cons kv t ih =>
    obtain ⟨k1, v1⟩ := kv
    rw [List.map_cons]
    rcases hb : (k1 == k) with _ | _
    · rw [if_neg (by simp)]
      show (if (k1 == k2) = true then some v1 else _) =
        (if (k1 == k2) = true then some v1 else _)
      rcases h2 : (k1 == k2) with _ | _
      · simp only [Bool.false_eq_true, if_false]
        exact ih
      · simp
    · have hk1 : k1 = k := by simpa using hb
      subst hk1
      rw [if_pos rfl]
      have hne : (k1 == k2) = false := beq_eq_false_iff_ne.mpr (fun hx => h hx.symm)
      show (if (k1 == k2) = true then some v else _) = (if (k1 == k2) = true then some v1 else _)
      rw [hne]
      simp only [Bool.false_eq_true, if_false]
      exact ih

theorem dictGet_replace_eq (d : CacheDict) (k : String) (v : CacheEntry)
    (h : d.any (fun kv => kv.1 == k) = true) :
    dictGet (d.map (fun kv => if kv.1 == k then (k, v) else kv)) k = some v := by
  induction d with
  | nil => simp at h
  | cons kv t ih =>
    obtain ⟨k1, v1⟩ := kv
    rw [List.map_cons]
    rcases hb : (k1 == k) with _ | _
    · rw [if_neg (by simp)]
      have ht : t.any (fun kv => kv.1 == k) = true := by
        simpa [hb] using h
      show (if (k1 == k) = true then some v1 else _) = some v
      rw [hb]
      simp only [Bool.false_eq_true, if_false]
      exact ih ht
    · have hk1 : k1 = k := by simpa using hb
      subst hk1
      rw [if_pos rfl]
      show (if (k1 == k1) = true then some v else _) = some v
      simp

theorem dictGet_append (d1 d2 : CacheDict) (k : String) :
    dictGet (d1 ++ d2) k =
      match dictGet d1 k with
      | some v => some v
      | none => dictGet d2 k := by
  induction d1 with
  | nil => simp [dictGet]
  | cons kv t ih =>
    obtain ⟨k1, v1⟩ := kv
    by_cases h1 : k1 = k
    · subst h1
      rw [List.cons_append, dictGet_cons_eq k1 k1 v1 (t ++ d2) rfl,
        dictGet_cons_eq k1 k1 v1 t rfl]
    · rw [List.cons_append, dictGet_cons_ne k1 k v1 (t ++ d2) h1,
        dictGet_cons_ne k1 k v1 t h1, ih]

theorem dictGet_not_found (d : CacheDict) (k : String)
    (h : d.any (fun kv => kv.1 == k) = false) : dictGet d k = none := by
  induction d with
  | nil => rfl
  | cons kv t ih =>
    obtain ⟨k1, v1⟩ := kv
    simp only [List.any_cons, Bool.or_eq_false_iff, beq_eq_false_iff_ne, ne_eq] at h
    simp only [dictGet, beq_iff_eq, if_neg h.1]
    exact ih (by simpa using h.2)

/-- The master lemma for dict updates: a lookup after `d[k] = v`. -/
theorem dictGet_dictSet (d : CacheDict) (k k2 : String) (v : CacheEntry) :
    dictGet (dictSet d k v) k2 = if k2 = k then some v else dictGet d k2 := by
  unfold dictSet
  by_cases hany : d.any (fun kv => kv.1 == k) = true
  · rw [if_pos hany]
    by_cases h2 : k2 = k
    · subst h2
      rw [if_pos rfl, dictGet_replace_eq d k2 v hany]
    · rw [if_neg h2, dictGet_replace_ne d k k2 v h2]
  · rw [if_neg hany, dictGet_append]
    by_cases h2 : k2 = k
    · subst h2
      have hfalse : d.any (fun kv => kv.1 == k2) = false := by
        cases hx : d.any (fun kv => kv.1 == k2) <;> simp_all
      rw [dictGet_not_found d k2 hfalse]
      simp [dictGet]
    · rw [if_neg h2]
      have hone : dictGet [(k, v)] k2 = none := by
        have hne : (k == k2) = false := beq_eq_false_iff_ne.mpr (fun hx => h2 hx.symm)
        show (if (k == k2) = true then some v else dictGet [] k2) = none
        rw [hne]
        simp [dictGet]
      cases hg : dictGet d k2 <;> simp [hone]

theorem dictGet_mem (d : CacheDict) (k : String) (v : CacheEntry)
    (h : dictGet d k = some v) : (k, v) ∈ d := by
  induction d with
  | nil => simp [dictGet] at h
  | cons kv t ih =>
    obtain ⟨k1, v1⟩ := kv
    by_cases h1 : k1 = k
    · subst h1
      simp only [dictGet, beq_self_eq_true, if_true, Option.some.injEq] at h
      subst h
      exact List.mem_cons_self _ _
    · simp only [dictGet, beq_iff_eq, if_neg h1] at h
      exact List.mem_cons_of_mem _ (ih h)

/-- Storing the same value under several (possibly colliding) keys keeps
every previously stored key that held that value mapping to it. -/
theorem dictGet_dictSet_same (d : CacheDict) (k k2 : String) (v : CacheEntry)
    (h : dictGet d k2 = some v) : dictGet (dictSet d k v) k2 = some v := by
  rw [dictGet_dictSet]
  split <;> simp [h]

/-- C3: after `_store_entry_under_keys` stores an entry for
(app_id, filter, language, requested, effective), `_get_cached_entry` with
the same triple and no count hint, or with the requested or the effective
count as hint, returns that same entry (item sequence and cursor included);
and the lookup tries the v2 key first, falling back to the v1 key exactly
when a hint is supplied. -/
theorem c3_key_round_trip :
    (∀ (cache : CacheDict) (entry : CacheEntry) (app_id review_filter language : String)
      (requested effective : ℤ),
      getCachedEntry (storeEntryUnderKeys cache entry app_id review_filter language
        requested effective) app_id review_filter language none = some entry ∧
      getCachedEntry (storeEntryUnderKeys cache entry app_id review_filter language
        requested effective) app_id review_filter language (some requested) = some entry ∧
      getCachedEntry (storeEntryUnderKeys cache entry app_id review_filter language
        requested effective) app_id review_filter language (some effective) = some entry) ∧
    (∀ (d : CacheDict) (app_id review_filter language : String) (hint : Option ℤ)
      (e : CacheEntry),
      dictGet d (v2Key app_id review_filter language) = some e →
        getCachedEntry d app_id review_filter language hint = some e) ∧
    (∀ (d : CacheDict) (app_id review_filter language : String),
      dictGet d (v2Key app_id review_filter language) = none →
        getCachedEntry d app_id review_filter language none = none) ∧
    (∀ (d : CacheDict) (app_id review_filter language : String) (c : ℤ),
      dictGet d (v2Key app_id review_filter language) = none →
        getCachedEntry d app_id review_filter language (some c) =
          dictGet d (v1Key app_id c review_filter language)) := by
  refine ⟨?_, ?_, ?_, ?_⟩
  · intro cache entry app_id review_filter language requested effective
    have hv2 : dictGet (storeEntryUnderKeys cache entry app_id review_filter language
        requested effective) (v2Key app_id review_filter language) = some entry := by
      unfold storeEntryUnderKeys
      apply dictGet_dictSet_same
      apply dictGet_dictSet_same
      rw [dictGet_dictSet, if_pos rfl]
    refine ⟨?_, ?_, ?_⟩ <;> · unfold getCachedEntry; rw [hv2]
  · intro d app_id review_filter language hint e h
    unfold getCachedEntry
    rw [h]
  · intro d app_id review_filter language h
    unfold getCachedEntry
    rw [h]
  · intro d app_id review_filter language c h
    unfold getCachedEntry
    rw [h]

/-- Witness for `c3_key_round_trip` at concrete inputs. -/
theorem c3_key_round_trip_witness :
    (getCachedEntry (storeEntryUnderKeys [] (freshEntry 0 5) "10" "recent" "english" 7 5)
      "10" "recent" "english" (some 7) = some (freshEntry 0 5)) ∧
    (dictGet [(v2Key "10" "recent" "english", freshEntry 0 5)]
        (v2Key "10" "recent" "english") = some (freshEntry 0 5)) ∧
    (getCachedEntry [(v2Key "10" "recent" "english", freshEntry 0 5)]
        "10" "recent" "english" (some 3) = some (freshEntry 0 5)) ∧
    (dictGet ([] : CacheDict) (v2Key "10" "recent" "english") = none) ∧
    (getCachedEntry ([] : CacheDict) "10" "recent" "english" none = none) ∧
    (getCachedEntry ([] : CacheDict) "10" "recent" "english" (some 3) =
      dictGet ([] : CacheDict) (v1Key "10" 3 "recent" "english")) := by
  refine ⟨(c3_key_round_trip.1 [] (freshEntry 0 5) "10" "recent" "english" 7 5).2.1,
    rfl, ?_, rfl, ?_, ?_⟩
  · exact c3_key_round_trip.2.1 [(v2Key "10" "recent" "english", freshEntry 0 5)]
      "10" "recent" "english" (some 3) (freshEntry 0 5) rfl
  · exact c3_key_round_trip.2.2.1 [] "10" "recent" "english" rfl
  · exact c3_key_round_trip.2.2.2 [] "10" "recent" "english" 3 rfl

/-- Test fixture: a record with a given playtime. -/
def hoursRecord (h : ℚ) : ReviewRecord :=
  { review_text := ""
    playtime_hours := h
    sentiment_label := "Neutral"
    sentiment_compound := 0
    theme_tags := [] }

/-- C6 (documenting the defect): on playtimes `[1,1,1,1,100]` the
distribution is as the claim states (median 1.0, bucket `<1` = 0, bucket
`1-5` = 4, bucket `100+` = 1), but on `[1,1,1,1,2]` the bin edge list
`[0,1,5,10,20,50,100, max+1] = [..., 100, 3]` is not monotone and
`np.histogram` raises `ValueError` instead of returning a histogram: the
"otherwise it returns ..." part of the claim fails whenever
`max(playtimes) + 1 < 100`. -/
theorem c6_playtime_distribution :
    calculate_playtime_distribution ([1, 1, 1, 1, 100].map hoursRecord) =
      Except.ok
        { median_hours := 1
          percentile_25th := 1
          percentile_75th := 1
          interpretation := "The majority of players spend moderate time in the game."
          histogram_buckets := [0, 4, 0, 0, 0, 0, 1]
          histogram_bins_hours := ["<1", "1–5", "5–10", "10–20", "20–50", "50–100", "100+"] } ∧
    calculate_playtime_distribution ([1, 1, 1, 1, 2].map hoursRecord) =
      Except.error "ValueError: bins must increase monotonically" := by
  have h1 := pyRound_intCast 2 1
  norm_num at h1
  constructor <;>
    norm_num [calculate_playtime_distribution, hoursRecord, npMedian, npPercentile,
      npHistogram, histCounts, sortQ, List.insertionSort, List.orderedInsert,
      rat_floor_eq_floor, h1, List.countP_cons, Int.toNat_ofNat,
      List.getD_cons_zero, List.getD_cons_succ, Nat.min_def,
      show Int.toNat 3 = 3 from rfl, show Int.toNat 1 = 1 from rfl,
      List.getElem_cons_succ, List.getElem_cons_zero,
      List.getElem?_cons_succ, List.getElem?_cons_zero, Option.getD_some]

/-! ### Declarative characterization of the keyword matchers (for C7) -/

theorem startsWithSeq_iff (p : List Char) : ∀ t : List Char,
    startsWithSeq p t = true ↔ ∃ rest, t = p ++ rest := by
  induction p with
  | nil =>
    intro t
    simp [startsWithSeq]
  | cons a as ih =>
    intro t
    cases t with
    | nil => simp [startsWithSeq]
    | cons b bs =>
      show (a == b && startsWithSeq as bs) = true ↔ _
      rw [Bool.and_eq_true, beq_iff_eq, ih bs]
      constructor
      · rintro ⟨rfl, rest, rfl⟩
        exact ⟨rest, rfl⟩
      · rintro ⟨rest, h⟩
        rw [List.cons_append] at h
        obtain ⟨h1, h2⟩ := List.cons.injEq .. ▸ h
        exact ⟨h1.symm, rest, h2⟩

theorem containsSeq_iff (p : List Char) : ∀ t : List Char,
    containsSeq p t = true ↔ ∃ pre post, t = pre ++ p ++ post := by
  intro t
  induction t with
  | nil =>
    show startsWithSeq p [] = true ↔ _
    rw [startsWithSeq_iff]
    constructor
    · rintro ⟨rest, h⟩
      obtain ⟨h1, h2⟩ := List.append_eq_nil.mp h.symm
      exact ⟨[], [], by simp [h1, h2]⟩
    · rintro ⟨pre, post, h⟩
      obtain ⟨h1, h2⟩ := List.append_eq_nil.mp h.symm
      obtain ⟨h3, h4⟩ := List.append_eq_nil.mp h1
      exact ⟨[], by simp [h4]⟩
  | cons c rest ih =>
    show (startsWithSeq p (c :: rest) || containsSeq p rest) = true ↔ _
    rw [Bool.or_eq_true, startsWithSeq_iff, ih]
    constructor
    · rintro (⟨post, h⟩ | ⟨pre, post, h⟩)
      · exact ⟨[], post, by simpa using h⟩
      · exact ⟨c :: pre, post, by simp [h]⟩
    · rintro ⟨pre, post, h⟩
      cases pre with
      | nil =>
        exact Or.inl ⟨post, by simpa using h⟩
      | cons c2 pre2 =>
        rw [List.cons_append, List.cons_append] at h
        obtain ⟨h1, h2⟩ := List.cons.injEq .. ▸ h
        exact Or.inr ⟨pre2, post, h2⟩

/-- The character immediately before a match at the split `pre ++ _` inside a
text whose character before the scan start is `prev`. -/
def prevChar (prev : Option Char) (pre : List Char) : Option Char :=
  match pre.getLast? with
  | some c => some c
  | none => prev

/-- The position boundary condition of `\b` on the left of a match. -/
def noWordBefore (o : Option Char) : Prop :=
  ∀ c, o = some c → isWordChar c = false

/-- The position boundary condition of `\b` on the right of a match. -/
def noWordHead (post : List Char) : Prop :=
  ∀ c, post.head? = some c → isWordChar c = false

theorem boundaryOkBefore_iff (o : Option Char) :
    boundaryOkBefore o = true ↔ noWordBefore o := by
  cases o <;> simp [boundaryOkBefore, noWordBefore]

theorem boundaryOkAfter_iff (l : List Char) :
    boundaryOkAfter l = true ↔ noWordHead l := by
  cases l <;> simp [boundaryOkAfter, noWordHead]

theorem prevChar_cons (prev : Option Char) (c : Char) (pre : List Char) :
    prevChar prev (c :: pre) = prevChar (some c) pre := by
  cases pre with
  | nil => rfl
  | cons d rest =>
    show prevChar prev (c :: d :: rest) = prevChar (some c) (d :: rest)
    unfold prevChar
    rw [List.getLast?_cons_cons]
    cases hx : (d :: rest).getLast? with
    | none => exact absurd hx (by simp)
    | some e => rfl

/-- Correctness of the word-boundary scanner: it finds exactly the
decompositions `t = pre ++ kw ++ post` whose both sides land on `\b`
boundaries (the character left of the match, or `prev` at the scan start,
is no word character; same for the character right of the match). -/
theorem wordMatchFrom_iff (kw : List Char) : ∀ (t : List Char) (prev : Option Char),
    wordMatchFrom kw prev t = true ↔
      ∃ pre post, t = pre ++ kw ++ post ∧
        noWordBefore (prevChar prev pre) ∧ noWordHead post := by
  intro t
  induction t with
  | nil =>
    intro prev
    show (startsWithSeq kw [] && boundaryOkBefore prev) = true ↔ _
    rw [Bool.and_eq_true, startsWithSeq_iff, boundaryOkBefore_iff]
    constructor
    · rintro ⟨⟨rest, hrest⟩, hb⟩
      obtain ⟨h1, h2⟩ := List.append_eq_nil.mp hrest.symm
      refine ⟨[], [], by simp [h1], ?_, ?_⟩
      · simpa [prevChar] using hb
      · intro ch hch
        simp at hch
    · rintro ⟨pre, post, heq, hb, hh⟩
      obtain ⟨h1, h2⟩ := List.append_eq_nil.mp heq.symm
      obtain ⟨h3, h4⟩ := List.append_eq_nil.mp h1
      subst h3
      refine ⟨⟨[], by simp [h4]⟩, ?_⟩
      simpa [prevChar] using hb
  | cons c rest ih =>
    intro prev
    show ((startsWithSeq kw (c :: rest) && boundaryOkBefore prev &&
      boundaryOkAfter (List.drop kw.length (c :: rest)))
      || wordMatchFrom kw (some c) rest) = true ↔ _
    rw [Bool.or_eq_true, Bool.and_eq_true, Bool.and_eq_true, startsWithSeq_iff,
      boundaryOkBefore_iff, boundaryOkAfter_iff, ih (some c)]
    constructor
    · rintro (⟨⟨⟨post, hpost⟩, hb⟩, hh⟩ | ⟨pre, post, heq, hb, hh⟩)
      · refine ⟨[], post, by simpa using hpost, by simpa [prevChar] using hb, ?_⟩
        rwa [hpost, List.drop_left] at hh
      · exact ⟨c :: pre, post, by simp [heq], by rwa [prevChar_cons], hh⟩
    · rintro ⟨pre, post, heq, hb, hh⟩
      cases pre with
      | nil =>
        simp only [List.nil_append] at heq
        refine Or.inl ⟨⟨⟨post, heq⟩, by simpa [prevChar] using hb⟩, ?_⟩
        rw [heq, List.drop_left]
        exact hh
      | cons c2 pre2 =>
        rw [List.cons_append, List.cons_append] at heq
        obtain ⟨h1, h2⟩ := List.cons.injEq .. ▸ heq
        subst h1
        exact Or.inr ⟨pre2, post, h2, by rwa [prevChar_cons] at hb, hh⟩

theorem prevChar_none (pre : List Char) : prevChar none pre = pre.getLast? := by
  unfold prevChar
  cases pre.getLast? <;> rfl

/-- C7: a keyword containing a space or hyphen matches as a case-insensitive
literal substring (a decomposition of the lowered text around the lowered
keyword), while a single-word keyword matches only at word boundaries
(both neighbours of the occurrence absent or non-word characters);
consequently the tag set of "only 3 hours long, total waste of time"
contains `length` and `grind`, and the tag set of "great graphics" is
empty. -/
theorem c7_theme_tagging :
    (∀ kw : String, kw ∈ LENGTH_KEYWORDS ++ GRIND_KEYWORDS ++ VALUE_KEYWORDS →
      ∀ text : String,
        (strHasSpaceOrHyphen (pyStrip kw) = true →
          (keywordMatches kw text = true ↔
            ∃ pre post, lowerStr text = pre ++ lowerStr (pyStrip kw) ++ post)) ∧
        (strHasSpaceOrHyphen (pyStrip kw) = false →
          (keywordMatches kw text = true ↔
            ∃ pre post, lowerStr text = pre ++ lowerStr (pyStrip kw) ++ post ∧
              noWordBefore pre.getLast? ∧ noWordHead post))) ∧
    "length" ∈ tagThemes "only 3 hours long, total waste of time" ∧
    "grind" ∈ tagThemes "only 3 hours long, total waste of time" ∧
    tagThemes "great graphics" = [] := by
  have hall : (LENGTH_KEYWORDS ++ GRIND_KEYWORDS ++ VALUE_KEYWORDS).all
      (fun kw => !(pyStrip kw == "")) = true := by decide
  refine ⟨?_, by decide, by decide, by decide⟩
  intro kw hkw text
  have hne : (pyStrip kw == "") = false := by
    have := List.all_eq_true.mp hall kw hkw
    simpa using this
  constructor
  · intro hsp
    unfold keywordMatches
    rw [if_neg (by simp [hne]), if_pos hsp]
    exact containsSeq_iff (lowerStr (pyStrip kw)) (lowerStr text)
  · intro hsp
    unfold keywordMatches
    rw [if_neg (by simp [hne]), if_neg (by simp [hsp]), wordMatchFrom_iff]
    simp only [prevChar_none]

/-- Witness for `c7_theme_tagging` at a concrete keyword and text. -/
theorem c7_theme_tagging_witness :
    ("hours" ∈ LENGTH_KEYWORDS ++ GRIND_KEYWORDS ++ VALUE_KEYWORDS) ∧
    strHasSpaceOrHyphen (pyStrip "hours") = false ∧
    (keywordMatches "hours" "3 hours in" = true ↔
      ∃ pre post, lowerStr "3 hours in" = pre ++ lowerStr (pyStrip "hours") ++ post ∧
        noWordBefore pre.getLast? ∧ noWordHead post) := by
  exact ⟨by decide, by decide,
    (c7_theme_tagging.1 "hours" (by decide) "3 hours in").2 (by decide)⟩

/-! ### Purge lemmas (for C4 and C9) -/

theorem foldl_dictPop_subset (S : List (String × CacheEntry)) :
    ∀ (d : CacheDict) (kv : String × CacheEntry),
      kv ∈ S.foldl (fun acc x => dictPop acc x.1) d → kv ∈ d := by
  induction S with
  | nil => intro d kv h; exact h
  | cons x t ih =>
    intro d kv h
    have h1 := ih (dictPop d x.1) kv h
    exact (List.eraseP_sublist _).subset h1

theorem purgeSize_subset (d : CacheDict) (kv : String × CacheEntry)
    (h : kv ∈ purgeSize d) : kv ∈ d := by
  unfold purgeSize at h
  split at h
  · exact foldl_dictPop_subset _ _ _ h
  · exact h

theorem purgeExpired_mem (now : ℚ) (d : CacheDict) (kv : String × CacheEntry)
    (h : kv ∈ purgeExpired now d) :
    kv ∈ d ∧ now - kv.2.created_at ≤ CACHE_TTL_SECONDS := by
  unfold purgeExpired at h
  have := List.mem_filter.mp h
  exact ⟨this.1, by simpa using this.2⟩

theorem purgeCache_mem (now : ℚ) (d : CacheDict) (kv : String × CacheEntry)
    (h : kv ∈ purgeCache now d) :
    kv ∈ d ∧ now - kv.2.created_at ≤ CACHE_TTL_SECONDS := by
  unfold purgeCache at h
  have h1 := purgeSize_subset _ _ h
  have h2 := purgeExpired_mem now d kv h1
  exact h2

theorem dictGet_purge_none (now : ℚ) (d : CacheDict) (k : String)
    (h : ∀ e, (k, e) ∈ d → CACHE_TTL_SECONDS < now - e.created_at) :
    dictGet (purgeCache now d) k = none := by
  cases hg : dictGet (purgeCache now d) k with
  | none => rfl
  | some v =>
    have hmem := dictGet_mem _ _ _ hg
    have h2 := purgeCache_mem now d _ hmem
    have h3 := h v h2.1
    have h4 := h2.2
    simp only at h4
    linarith

theorem getCachedEntry_purge_none (now : ℚ) (d : CacheDict)
    (app_id review_filter language : String) (hint : Option ℤ)
    (h2 : ∀ e, (v2Key app_id review_filter language, e) ∈ d →
      CACHE_TTL_SECONDS < now - e.created_at)
    (h1 : ∀ c e, hint = some c → (v1Key app_id c review_filter language, e) ∈ d →
      CACHE_TTL_SECONDS < now - e.created_at) :
    getCachedEntry (purgeCache now d) app_id review_filter language hint = none := by
  unfold getCachedEntry
  rw [dictGet_purge_none now d _ h2]
  cases hint with
  | none => rfl
  | some c =>
    show dictGet (purgeCache now d) (v1Key app_id c review_filter language) = none
    exact dictGet_purge_none now d _ (fun e hm => h1 c e rfl hm)

/-- C4: entries older than `CACHE_TTL_SECONDS` (30 minutes) are dead: (a) a
`/reviews` or `/export` read whose lookup keys hold only expired entries
answers 404 (the purge pass that each route runs first removes them, and the
explicit `created_at` re-check in each route rejects any expired entry a
lookup could still return); (b) an `/analyze` request facing an expired (or
purged-away) entry resolves to a fresh entry instead of reusing it; (c) the
purge pass removes every expired entry: everything surviving `_purge_cache`
is within the TTL. -/
theorem c4_ttl_expiry :
    (∀ (now : ℚ) (cache : CacheDict) (appIdRaw : Option String)
      (offsetRaw limitRaw : Option ℤ) (filterRaw langRaw : Option String)
      (totalRaw : Option ℤ) (themedRaw fbRaw : Option String),
      (pyStrip (appIdRaw.getD "") == "") = false →
      (∀ e, (v2Key (pyStrip (appIdRaw.getD "")) (normalizeFilter filterRaw)
          (normalizeLanguage langRaw), e) ∈ cache →
        CACHE_TTL_SECONDS < now - e.created_at) →
      (∀ c e, totalRaw = some c →
        (v1Key (pyStrip (appIdRaw.getD "")) c (normalizeFilter filterRaw)
          (normalizeLanguage langRaw), e) ∈ cache →
        CACHE_TTL_SECONDS < now - e.created_at) →
      reviewsRoute now cache appIdRaw offsetRaw limitRaw filterRaw langRaw totalRaw
        themedRaw fbRaw =
        Except.error (404, "Analysis data not found. Please run /analyze first.")) ∧
    (∀ (now : ℚ) (cache : CacheDict) (appIdRaw : Option String)
      (filterRaw langRaw : Option String) (totalRaw : Option ℤ)
      (themedRaw fbRaw : Option String),
      (pyStrip (appIdRaw.getD "") == "") = false →
      (∀ e, (v2Key (pyStrip (appIdRaw.getD "")) (normalizeFilter filterRaw)
          (normalizeLanguage langRaw), e) ∈ cache →
        CACHE_TTL_SECONDS < now - e.created_at) →
      (∀ c e, totalRaw = some c →
        (v1Key (pyStrip (appIdRaw.getD "")) c (normalizeFilter filterRaw)
          (normalizeLanguage langRaw), e) ∈ cache →
        CACHE_TTL_SECONDS < now - e.created_at) →
      exportRoute now cache appIdRaw filterRaw langRaw totalRaw themedRaw fbRaw =
        Except.error (404, "Review data not found in cache. Please run /analyze first.")) ∧
    (∀ (now : ℚ) (cache : CacheDict) (app_id review_filter language : String)
      (req : ℕ) (e : CacheEntry),
      getCachedEntry cache app_id review_filter language (some (req : ℤ)) = some e →
      CACHE_TTL_SECONDS < now - e.created_at →
      resolveEntry now cache app_id review_filter language req = freshEntry now req) ∧
    (∀ (now : ℚ) (cache : CacheDict) (app_id review_filter language : String) (req : ℕ),
      (∀ e, (v2Key app_id review_filter language, e) ∈ cache →
        CACHE_TTL_SECONDS < now - e.created_at) →
      (∀ e, (v1Key app_id (req : ℤ) review_filter language, e) ∈ cache →
        CACHE_TTL_SECONDS < now - e.created_at) →
      resolveEntry now (purgeCache now cache) app_id review_filter language req =
        freshEntry now req) ∧
    (∀ (now : ℚ) (cache : CacheDict) (kv : String × CacheEntry),
      kv ∈ purgeCache now cache → now - kv.2.created_at ≤ CACHE_TTL_SECONDS) := by
  refine ⟨?_, ?_, ?_, ?_, ?_⟩
  · intro now cache appIdRaw offsetRaw limitRaw filterRaw langRaw totalRaw
      themedRaw fbRaw happ h2 h1
    simp only [reviewsRoute]
    rw [if_neg (by simp [happ])]
    rw [getCachedEntry_purge_none now cache _ _ _ _ h2 h1]
  · intro now cache appIdRaw filterRaw langRaw totalRaw themedRaw fbRaw happ h2 h1
    simp only [exportRoute]
    rw [if_neg (by simp [happ])]
    rw [getCachedEntry_purge_none now cache _ _ _ _ h2 h1]
  · intro now cache app_id review_filter language req e hget hexp
    unfold resolveEntry
    rw [hget]
    show (if CACHE_TTL_SECONDS < now - e.created_at then freshEntry now req else e) = _
    rw [if_pos hexp]
  · intro now cache app_id review_filter language req h2 h1
    unfold resolveEntry
    rw [getCachedEntry_purge_none now cache _ _ _ _ h2
      (fun c e hc hm => by
        have hcr : c = (req : ℤ) := by injection hc.symm
        exact h1 e (hcr ▸ hm))]
  · intro now cache kv hmem
    exact (purgeCache_mem now cache kv hmem).2

/-- A stale entry for the witness: created at time 0. -/
def staleCache : CacheDict :=
  [(v2Key "10" "recent" "english", freshEntry 0 5)]

/-- Witness for `c4_ttl_expiry`: at `now = 2000` seconds an entry created at
time 0 is over the 1800-second TTL on every path. -/
theorem c4_ttl_expiry_witness :
    (reviewsRoute 2000 staleCache (some "10") none none none none none none none =
      Except.error (404, "Analysis data not found. Please run /analyze first.")) ∧
    (exportRoute 2000 staleCache (some "10") none none none none none =
      Except.error (404, "Review data not found in cache. Please run /analyze first.")) ∧
    (resolveEntry 2000 staleCache "10" "recent" "english" 5 = freshEntry 2000 5) ∧
    (resolveEntry 2000 (purgeCache 2000 staleCache) "10" "recent" "english" 5 =
      freshEntry 2000 5) := by
  have hexp : ∀ e, (v2Key "10" "recent" "english", e) ∈ staleCache →
      CACHE_TTL_SECONDS < 2000 - e.created_at := by
    intro e hm
    have he : e = freshEntry 0 5 := by
      simpa [staleCache] using hm
    subst he
    norm_num [CACHE_TTL_SECONDS, freshEntry]
  have hv1 : ∀ e, (v1Key "10" (5 : ℤ) "recent" "english", e) ∈ staleCache →
      CACHE_TTL_SECONDS < 2000 - e.created_at := by
    intro e hm
    simp only [staleCache, List.mem_singleton, Prod.mk.injEq] at hm
    exact absurd hm.1 (by decide)
  refine ⟨?_, ?_, ?_, ?_⟩
  · exact c4_ttl_expiry.1 2000 staleCache (some "10") none none none none none none none
      (by decide) (by simpa using hexp) (fun c e hc => by simp at hc)
  · exact c4_ttl_expiry.2.1 2000 staleCache (some "10") none none none none none
      (by decide) (by simpa using hexp) (fun c e hc => by simp at hc)
  · exact c4_ttl_expiry.2.2.1 2000 staleCache "10" "recent" "english" 5 (freshEntry 0 5)
      (by rfl) (by norm_num [CACHE_TTL_SECONDS, freshEntry])
  · exact c4_ttl_expiry.2.2.2.1 2000 staleCache "10" "recent" "english" 5 hexp hv1

theorem mem_eraseP_of_pred_false {α : Type _} {p : α → Bool} {l : List α} {a : α}
    (h : a ∈ l) (hp : p a = false) : a ∈ l.eraseP p := by
  induction l with
  | nil => simp at h
  | cons b t ih =>
    rcases hb : p b with _ | _
    · rw [List.eraseP_cons, hb]
      rcases List.mem_cons.mp h with rfl | ha
      · exact List.mem_cons_self _ _
      · exact List.mem_cons_of_mem _ (ih ha)
    · rw [List.eraseP_cons, hb]
      rcases List.mem_cons.mp h with rfl | ha
      · rw [hb] at hp
        simp at hp
      · simpa using ha

theorem keysNodup_unique {d : CacheDict} (hd : (d.map Prod.fst).Nodup)
    {k : String} {a b : CacheEntry} (ha : (k, a) ∈ d) (hb : (k, b) ∈ d) : a = b := by
  induction d with
  | nil => simp at ha
  | cons kv t ih =>
    rw [List.map_cons, List.nodup_cons] at hd
    rcases List.mem_cons.mp ha with rfl | ha2
    · rcases List.mem_cons.mp hb with heq | hb2
      · exact (Prod.mk.injEq .. ▸ heq.symm).2
      · exact absurd (List.mem_map_of_mem Prod.fst hb2) hd.1
    · rcases List.mem_cons.mp hb with rfl | hb2
      · exact absurd (List.mem_map_of_mem Prod.fst ha2) hd.1
      · exact ih hd.2 ha2 hb2

theorem keysNodup_eraseP {d : CacheDict} (hd : (d.map Prod.fst).Nodup)
    (p : String × CacheEntry → Bool) : ((d.eraseP p).map Prod.fst).Nodup :=
  hd.sublist ((List.eraseP_sublist d).map Prod.fst)

theorem not_mem_eraseP_key {x : String × CacheEntry} :
    ∀ {d : CacheDict}, (d.map Prod.fst).Nodup → x ∈ d →
      x ∉ d.eraseP (fun kv => kv.1 == x.1) := by
  intro d
  induction d with
  | nil =>
    intro _ hx
    simp at hx
  | cons kv t ih =>
    intro hd hx
    rw [List.map_cons, List.nodup_cons] at hd
    rcases hb : (kv.1 == x.1) with _ | _
    · have hne : kv.1 ≠ x.1 := by simpa using hb
      have hxt : x ∈ t := by
        rcases List.mem_cons.mp hx with rfl | h3
        · exact absurd rfl hne
        · exact h3
      rw [List.eraseP_cons, hb]
      show x ∉ kv :: t.eraseP (fun kv => kv.1 == x.1)
      intro hmem
      rcases List.mem_cons.mp hmem with rfl | h2
      · exact hne rfl
      · exact ih hd.2 hxt h2
    · have hk : kv.1 = x.1 := by simpa using hb
      rw [List.eraseP_cons, hb]
      show x ∉ t
      intro hmem
      exact hd.1 (hk ▸ List.mem_map_of_mem Prod.fst hmem)

theorem fold_pop_length (S : List (String × CacheEntry)) :
    ∀ d : CacheDict, (d.map Prod.fst).Nodup → (S.map Prod.fst).Nodup →
      (∀ x ∈ S, x ∈ d) →
      (S.foldl (fun acc x => dictPop acc x.1) d).length + S.length = d.length := by
  induction S with
  | nil =>
    intro d _ _ _
    simp
  | cons x t ih =>
    intro d hd hS hmem
    rw [List.map_cons, List.nodup_cons] at hS
    simp only [List.foldl_cons]
    have hx : x ∈ d := hmem x (List.mem_cons_self _ _)
    have hlen : (dictPop d x.1).length + 1 = d.length :=
      List.length_eraseP_add_one hx (by simp)
    have hmem2 : ∀ y ∈ t, y ∈ dictPop d x.1 := by
      intro y hy
      have hne : (y.1 == x.1) = false :=
        beq_eq_false_iff_ne.mpr (fun hk => hS.1 (hk ▸ List.mem_map_of_mem Prod.fst hy))
      exact mem_eraseP_of_pred_false (hmem y (List.mem_cons_of_mem _ hy)) hne
    have := ih (dictPop d x.1) (keysNodup_eraseP hd _) hS.2 hmem2
    simp only [List.length_cons]
    omega

theorem fold_pop_keep (S : List (String × CacheEntry)) :
    ∀ (d : CacheDict) (kv : String × CacheEntry), kv ∈ d → kv.1 ∉ S.map Prod.fst →
      kv ∈ S.foldl (fun acc x => dictPop acc x.1) d := by
  induction S with
  | nil =>
    intro d kv h _
    exact h
  | cons x t ih =>
    intro d kv h hk
    rw [List.map_cons] at hk
    simp only [List.foldl_cons]
    have hne : (kv.1 == x.1) = false :=
      beq_eq_false_iff_ne.mpr (fun he => hk (he ▸ List.mem_cons_self _ _))
    exact ih (dictPop d x.1) kv (mem_eraseP_of_pred_false h hne)
      (fun hmem => hk (List.mem_cons_of_mem _ hmem))

theorem fold_pop_removes (S : List (String × CacheEntry)) :
    ∀ (d : CacheDict) (x : String × CacheEntry), (d.map Prod.fst).Nodup →
      (S.map Prod.fst).Nodup → x ∈ S → x ∈ d →
      x ∉ S.foldl (fun acc x => dictPop acc x.1) d := by
  induction S with
  | nil =>
    intro d x _ _ hS _
    simp at hS
  | cons x0 t ih =>
    intro d x hd hS hxS hxd
    rw [List.map_cons, List.nodup_cons] at hS
    simp only [List.foldl_cons]
    rcases List.mem_cons.mp hxS with rfl | hxt
    · intro hmem
      exact not_mem_eraseP_key hd hxd (foldl_dictPop_subset t (dictPop d x.1) x hmem)
    · have hne : (x.1 == x0.1) = false :=
        beq_eq_false_iff_ne.mpr
          (fun hk => hS.1 (hk ▸ List.mem_map_of_mem Prod.fst hxt))
      exact ih (dictPop d x0.1) x (keysNodup_eraseP hd _) hS.2 hxt
        (mem_eraseP_of_pred_false hxd hne)

theorem purgeSize_eq_of_le (d : CacheDict) (h : ¬ CACHE_MAX_ITEMS < d.length) :
    purgeSize d = d := by
  unfold purgeSize
  rw [if_neg h]

theorem purgeSize_length_of_lt (d : CacheDict) (hd : (d.map Prod.fst).Nodup)
    (hlt : CACHE_MAX_ITEMS < d.length) : (purgeSize d).length = CACHE_MAX_ITEMS := by
  unfold purgeSize
  rw [if_pos hlt]
  have hperm : List.Perm (List.insertionSort byCreatedAt d) d :=
      List.perm_insertionSort byCreatedAt d
  have hlen : (List.insertionSort byCreatedAt d).length = d.length := hperm.length_eq
  have hkeys : ((List.insertionSort byCreatedAt d).map Prod.fst).Nodup :=
    ((hperm.map Prod.fst).nodup_iff).mpr hd
  have hSkeys :
      (((List.insertionSort byCreatedAt d).take (d.length - CACHE_MAX_ITEMS)).map
        Prod.fst).Nodup :=
    hkeys.sublist ((List.take_sublist _ _).map Prod.fst)
  have hmemS : ∀ x ∈ (List.insertionSort byCreatedAt d).take (d.length - CACHE_MAX_ITEMS),
      x ∈ d := fun x hx => hperm.subset (List.mem_of_mem_take hx)
  have hfold := fold_pop_length _ d hd hSkeys hmemS
  have hntake :
      ((List.insertionSort byCreatedAt d).take (d.length - CACHE_MAX_ITEMS)).length =
        d.length - CACHE_MAX_ITEMS := by
    rw [List.length_take]
    omega
  omega

theorem purgeSize_min (d : CacheDict) (hd : (d.map Prod.fst).Nodup)
    (kv : String × CacheEntry) (hkv : kv ∈ d) (hnot : kv ∉ purgeSize d) :
    ∀ kv2 ∈ purgeSize d, kv.2.created_at ≤ kv2.2.created_at := by
  intro kv2 hkv2
  by_cases hlt : CACHE_MAX_ITEMS < d.length
  · unfold purgeSize at hnot hkv2
    rw [if_pos hlt] at hnot hkv2
    have hperm : List.Perm (List.insertionSort byCreatedAt d) d :=
      List.perm_insertionSort byCreatedAt d
    have hlen : (List.insertionSort byCreatedAt d).length = d.length := hperm.length_eq
    have hkeys : ((List.insertionSort byCreatedAt d).map Prod.fst).Nodup :=
      ((hperm.map Prod.fst).nodup_iff).mpr hd
    have hSkeys :
        (((List.insertionSort byCreatedAt d).take (d.length - CACHE_MAX_ITEMS)).map
          Prod.fst).Nodup :=
      hkeys.sublist ((List.take_sublist _ _).map Prod.fst)
    have hkS : kv ∈ (List.insertionSort byCreatedAt d).take (d.length - CACHE_MAX_ITEMS) := by
      by_cases hkey : kv.1 ∈
          ((List.insertionSort byCreatedAt d).take (d.length - CACHE_MAX_ITEMS)).map Prod.fst
      · obtain ⟨x, hxS, hx1⟩ := List.mem_map.mp hkey
        obtain ⟨x1, x2⟩ := x
        obtain ⟨k1, v1⟩ := kv
        simp only at hx1
        subst hx1
        have hxd : (x1, x2) ∈ d := hperm.subset (List.mem_of_mem_take hxS)
        have hvv : x2 = v1 := keysNodup_unique hd hxd hkv
        subst hvv
        exact hxS
      · exact absurd (fold_pop_keep _ d kv hkv hkey) hnot
    have hkv2d : kv2 ∈ d := foldl_dictPop_subset _ d kv2 hkv2
    have hkv2items : kv2 ∈ List.insertionSort byCreatedAt d := hperm.mem_iff.mpr hkv2d
    have hkv2D : kv2 ∈ (List.insertionSort byCreatedAt d).drop (d.length - CACHE_MAX_ITEMS) := by
      rw [← List.take_append_drop (d.length - CACHE_MAX_ITEMS)
        (List.insertionSort byCreatedAt d)] at hkv2items
      rcases List.mem_append.mp hkv2items with hS | hD
      · exact absurd hkv2 (fold_pop_removes _ d kv2 hd hSkeys hS hkv2d)
      · exact hD
    have hsort : List.Sorted byCreatedAt (List.insertionSort byCreatedAt d) :=
      List.sorted_insertionSort byCreatedAt d
    have hpair : List.Pairwise byCreatedAt
        ((List.insertionSort byCreatedAt d).take (d.length - CACHE_MAX_ITEMS) ++
          (List.insertionSort byCreatedAt d).drop (d.length - CACHE_MAX_ITEMS)) := by
      rw [List.take_append_drop]
      exact hsort
    exact (List.pairwise_append.mp hpair).2.2 kv hkS kv2 hkv2D
  · rw [purgeSize_eq_of_le d hlt] at hnot
    exact absurd hkv hnot

/-- C9: after `_purge_cache`, the cache holds at most `CACHE_MAX_ITEMS` (50)
entries; when the expiry pass still leaves more than that, the size pass
brings it to exactly 50, and every entry it evicts has a `created_at` no
newer than that of every survivor (eviction strictly oldest-first by
`created_at`). -/
theorem c9_size_bounded_eviction (now : ℚ) (cache : CacheDict)
    (hnd : (cache.map Prod.fst).Nodup) :
    (purgeCache now cache).length ≤ CACHE_MAX_ITEMS ∧
    (CACHE_MAX_ITEMS < (purgeExpired now cache).length →
      (purgeCache now cache).length = CACHE_MAX_ITEMS) ∧
    (∀ kv, kv ∈ purgeExpired now cache → kv ∉ purgeCache now cache →
      ∀ kv2 ∈ purgeCache now cache, kv.2.created_at ≤ kv2.2.created_at) := by
  have hnd2 : ((purgeExpired now cache).map Prod.fst).Nodup :=
    hnd.sublist ((List.filter_sublist cache).map Prod.fst)
  refine ⟨?_, ?_, ?_⟩
  · by_cases hlt : CACHE_MAX_ITEMS < (purgeExpired now cache).length
    · unfold purgeCache
      rw [purgeSize_length_of_lt _ hnd2 hlt]
    · unfold purgeCache
      rw [purgeSize_eq_of_le _ hlt]
      omega
  · intro hlt
    unfold purgeCache
    exact purgeSize_length_of_lt _ hnd2 hlt
  · intro kv h1 h2 kv2 h3
    exact purgeSize_min _ hnd2 kv h1 h2 kv2 h3

/-- Witness for `c9_size_bounded_eviction` at a concrete cache. -/
theorem c9_size_bounded_eviction_witness :
    ((staleCache.map Prod.fst).Nodup) ∧
    (purgeCache 2000 staleCache).length ≤ CACHE_MAX_ITEMS := by
  have h := c9_size_bounded_eviction 2000 staleCache (by decide)
  exact ⟨by decide, h.1⟩

/-! ### Loop invariants (for C10, C2 and C1) -/

theorem collectLoop_eq_of_inl (fetch : String → Option SteamPayload)
    (tok : String → List String) (pol : String → ℚ) (review_count_req : ℕ)
    (st stF : LoopState) (h : loopStep fetch tok pol review_count_req st = Sum.inl stF) :
    collectLoop fetch tok pol review_count_req st = stF := by
  rw [collectLoop]
  split
  next stF2 heq =>
    rw [h] at heq
    exact (Sum.inl.injEq .. ▸ heq).symm
  next st2 heq =>
    rw [h] at heq
    exact absurd heq (by simp)

theorem collectLoop_eq_of_inr (fetch : String → Option SteamPayload)
    (tok : String → List String) (pol : String → ℚ) (review_count_req : ℕ)
    (st st' : LoopState) (h : loopStep fetch tok pol review_count_req st = Sum.inr st') :
    collectLoop fetch tok pol review_count_req st =
      collectLoop fetch tok pol review_count_req st' := by
  rw [collectLoop]
  split
  next stF2 heq =>
    rw [h] at heq
    exact absurd heq (by simp)
  next st2 heq =>
    rw [h] at heq
    obtain rfl := (Sum.inr.injEq .. ▸ heq)
    rfl

/-- The loop invariant behind C10: the trace of requested cursors never
repeats (each is recorded in `seen_cursors` before its page is fetched), its
length is the number of fetched pages, and that number never exceeds the
larger of the initial page budget `N` and the current one. -/
def loopInv (N : ℕ) (st : LoopState) : Prop :=
  st.trace.Nodup ∧ (∀ c ∈ st.trace, c ∈ st.seen_cursors) ∧
  st.trace.length = st.pages_fetched ∧
  st.pages_fetched ≤ max N st.pages_needed ∧
  (st.first_page_seen = false → st.pages_needed = N)

theorem loopInv_bumpFetched (N : ℕ) (cur : String) (st : LoopState)
    (hInv : loopInv N st) (hseen : cur ∉ st.seen_cursors)
    (hlt : st.pages_fetched < st.pages_needed) : loopInv N (bumpFetched cur st) := by
  obtain ⟨hn, hsub, hlen, hb, hN⟩ := hInv
  refine ⟨?_, ?_, ?_, ?_, ?_⟩
  · show (st.trace ++ [cur]).Nodup
    refine List.Nodup.append hn (List.nodup_singleton _) ?_
    intro a ha hb2
    simp only [List.mem_singleton] at hb2
    subst hb2
    exact hseen (hsub _ ha)
  · show ∀ c ∈ st.trace ++ [cur], c ∈ cur :: st.seen_cursors
    intro c hc
    rcases List.mem_append.mp hc with h1 | h1
    · exact List.mem_cons_of_mem _ (hsub c h1)
    · simp only [List.mem_singleton] at h1
      subst h1
      exact List.mem_cons_self _ _
  · show (st.trace ++ [cur]).length = st.pages_fetched + 1
    simp [hlen]
  · show st.pages_fetched + 1 ≤ max N st.pages_needed
    have := le_max_right N st.pages_needed
    omega
  · show st.first_page_seen = false → st.pages_needed = N
    exact hN

theorem loopInv_applyFirstPage (N review_count_req : ℕ) (payload : SteamPayload)
    (st : LoopState) (hInv : loopInv N st) :
    loopInv N (applyFirstPage review_count_req payload st) := by
  by_cases hfps : st.first_page_seen = true
  · rw [applyFirstPage_of_seen _ _ _ hfps]
    exact hInv
  · have hf : st.first_page_seen = false := by simpa using hfps
    obtain ⟨hn, hsub, hlen, hb, hN⟩ := hInv
    cases hsafe : safeTotalFromPayload payload with
    | none =>
      rw [applyFirstPage_of_total_none _ _ _ hf hsafe]
      refine ⟨hn, hsub, hlen, hb, ?_⟩
      intro h
      simp at h
    | some t =>
      rw [applyFirstPage_of_total_some _ _ _ t hf hsafe]
      refine ⟨hn, hsub, hlen, ?_, ?_⟩
      · show st.pages_fetched ≤ max N (pagesFor _)
        have hb2 : st.pages_fetched ≤ max N st.pages_needed := hb
        rw [hN hf] at hb2
        simp only [max_self] at hb2
        exact le_trans hb2 (le_max_left _ _)
      · intro h
        simp at h

theorem loopStep_inv (fetch : String → Option SteamPayload) (tok : String → List String)
    (pol : String → ℚ) (review_count_req N : ℕ) (st : LoopState)
    (hInv : loopInv N st) :
    loopInv N ((loopStep fetch tok pol review_count_req st).elim id id) := by
  simp only [loopStep]
  split
  · exact hInv
  next hguard =>
  rw [not_not] at hguard
  split
  · exact hInv
  next cur hcur =>
  split
  · exact hInv
  next hseen =>
  have hbump := loopInv_bumpFetched N cur st hInv hseen hguard.1
  split
  · exact hbump
  next payload hfetch =>
  split
  · exact hbump
  next hsucc =>
  have hst2 := loopInv_applyFirstPage N review_count_req payload _ hbump
  split
  · exact hst2
  · exact hst2

theorem collectLoop_inv (fetch : String → Option SteamPayload) (tok : String → List String)
    (pol : String → ℚ) (review_count_req N : ℕ) :
    ∀ st : LoopState, loopInv N st →
      loopInv N (collectLoop fetch tok pol review_count_req st) := by
  intro st
  induction st using collectLoop.induct fetch tok pol review_count_req with
  | case1 x stF hstep =>
    intro hInv
    rw [collectLoop_eq_of_inl fetch tok pol review_count_req x stF hstep]
    have := loopStep_inv fetch tok pol review_count_req N x hInv
    rwa [hstep] at this
  | case2 x st' hstep ih =>
    intro hInv
    rw [collectLoop_eq_of_inr fetch tok pol review_count_req x st' hstep]
    have := loopStep_inv fetch tok pol review_count_req N x hInv
    rw [hstep] at this
    exact ih this

/-- C10: within one top-up the page loop never requests the same cursor
twice — every cursor is recorded in `seen_cursors` before its page is
fetched, and a repeated cursor breaks the loop — so the trace of requested
cursors is duplicate-free, and the loop terminates (it is a total function
here) after at most `pages_needed` page fetches, where `pages_needed` is the
page budget (the larger of its initial value and its one possible
first-page recomputation). -/
theorem c10_no_duplicate_fetches (fetch : String → Option SteamPayload)
    (tok : String → List String) (pol : String → ℚ) (review_count_req : ℕ)
    (st0 : LoopState) (h1 : st0.seen_cursors = []) (h2 : st0.trace = [])
    (h3 : st0.pages_fetched = 0) :
    (collectLoop fetch tok pol review_count_req st0).trace.Nodup ∧
    (collectLoop fetch tok pol review_count_req st0).trace.length ≤
      max st0.pages_needed (collectLoop fetch tok pol review_count_req st0).pages_needed := by
  have hInv0 : loopInv st0.pages_needed st0 := by
    refine ⟨?_, ?_, ?_, ?_, fun _ => rfl⟩
    · rw [h2]
      exact List.nodup_nil
    · intro c hc
      rw [h2] at hc
      simp at hc
    · rw [h2, h3]
      rfl
    · rw [h3]
      exact Nat.zero_le _
  have hF := collectLoop_inv fetch tok pol review_count_req st0.pages_needed st0 hInv0
  obtain ⟨hn, _, hlen, hb, _⟩ := hF
  exact ⟨hn, by omega⟩

/-- A loop start state for the witnesses: fresh entry, budget of one page. -/
def loopStart : LoopState :=
  { all_reviews := []
    params_cursor := some "*"
    cursor := some "*"
    steam_total := none
    target_count := 10
    effective_target_count := 10
    pages_needed := 1
    pages_fetched := 0
    seen_cursors := []
    first_page_seen := false
    trace := [] }

/-- Witness for `c10_no_duplicate_fetches` at a concrete loop run. -/
theorem c10_no_duplicate_fetches_witness :
    (collectLoop (fun _ => none) (fun s => [s]) (fun _ => 0) 10 loopStart).trace.Nodup ∧
    (collectLoop (fun _ => none) (fun s => [s]) (fun _ => 0) 10 loopStart).trace.length ≤
      max loopStart.pages_needed
        (collectLoop (fun _ => none) (fun s => [s]) (fun _ => 0) 10 loopStart).pages_needed :=
  c10_no_duplicate_fetches (fun _ => none) (fun s => [s]) (fun _ => 0) 10 loopStart
    rfl rfl rfl

/-! ### How the loop treats `steam_total_reviews` and
`effective_target_count` (for C2) -/

theorem natClamp_le_max (x : ℕ) :
    natClamp x MIN_REVIEW_COUNT MAX_REVIEW_COUNT ≤ MAX_REVIEW_COUNT := by
  unfold natClamp MIN_REVIEW_COUNT MAX_REVIEW_COUNT
  omega

theorem applyFirstPage_shape (review_count_req : ℕ) (payload : SteamPayload)
    (st : LoopState) :
    ((applyFirstPage review_count_req payload st).steam_total = st.steam_total ∧
      (applyFirstPage review_count_req payload st).effective_target_count =
        st.effective_target_count) ∨
    (∃ t, (applyFirstPage review_count_req payload st).steam_total = some t ∧
      (applyFirstPage review_count_req payload st).effective_target_count =
        natClamp (min review_count_req t) MIN_REVIEW_COUNT MAX_REVIEW_COUNT) := by
  by_cases hfps : st.first_page_seen = true
  · rw [applyFirstPage_of_seen _ _ _ hfps]
    exact Or.inl ⟨rfl, rfl⟩
  · have hf : st.first_page_seen = false := by simpa using hfps
    cases hsafe : safeTotalFromPayload payload with
    | none =>
      rw [applyFirstPage_of_total_none _ _ _ hf hsafe]
      exact Or.inl ⟨rfl, rfl⟩
    | some t =>
      rw [applyFirstPage_of_total_some _ _ _ t hf hsafe]
      exact Or.inr ⟨t, rfl, rfl⟩

theorem loopStep_shape (fetch : String → Option SteamPayload) (tok : String → List String)
    (pol : String → ℚ) (review_count_req : ℕ) (st : LoopState) :
    (((loopStep fetch tok pol review_count_req st).elim id id).steam_total =
        st.steam_total ∧
      ((loopStep fetch tok pol review_count_req st).elim id id).effective_target_count =
        st.effective_target_count) ∨
    (∃ t, ((loopStep fetch tok pol review_count_req st).elim id id).steam_total = some t ∧
      ((loopStep fetch tok pol review_count_req st).elim id id).effective_target_count =
        natClamp (min review_count_req t) MIN_REVIEW_COUNT MAX_REVIEW_COUNT) := by
  simp only [loopStep]
  split
  · exact Or.inl ⟨rfl, rfl⟩
  next hguard =>
  split
  · exact Or.inl ⟨rfl, rfl⟩
  next cur hcur =>
  split
  · exact Or.inl ⟨rfl, rfl⟩
  next hseen =>
  split
  · exact Or.inl ⟨rfl, rfl⟩
  next payload hfetch =>
  split
  · exact Or.inl ⟨rfl, rfl⟩
  next hsucc =>
  have hshape := applyFirstPage_shape review_count_req payload (bumpFetched cur st)
  split <;>
    rcases hshape with ⟨h1, h2⟩ | ⟨t, h1, h2⟩
  · exact Or.inl ⟨h1, h2⟩
  · exact Or.inr ⟨t, h1, h2⟩
  · exact Or.inl ⟨h1, h2⟩
  · exact Or.inr ⟨t, h1, h2⟩

theorem collectLoop_shape (fetch : String → Option SteamPayload)
    (tok : String → List String) (pol : String → ℚ) (review_count_req : ℕ) :
    ∀ st : LoopState,
      ((collectLoop fetch tok pol review_count_req st).steam_total = st.steam_total ∧
        (collectLoop fetch tok pol review_count_req st).effective_target_count =
          st.effective_target_count) ∨
      (∃ t, (collectLoop fetch tok pol review_count_req st).steam_total = some t ∧
        (collectLoop fetch tok pol review_count_req st).effective_target_count =
          natClamp (min review_count_req t) MIN_REVIEW_COUNT MAX_REVIEW_COUNT) := by
  intro st
  induction st using collectLoop.induct fetch tok pol review_count_req with
  | case1 x stF hstep =>
    rw [collectLoop_eq_of_inl fetch tok pol review_count_req x stF hstep]
    have := loopStep_shape fetch tok pol review_count_req x
    rwa [hstep] at this
  | case2 x st' hstep ih =>
    rw [collectLoop_eq_of_inr fetch tok pol review_count_req x st' hstep]
    have hstep2 := loopStep_shape fetch tok pol review_count_req x
    rw [hstep] at hstep2
    simp only [Sum.elim_inr, id] at hstep2
    rcases ih with ⟨i1, i2⟩ | ⟨t, i1, i2⟩
    · rcases hstep2 with ⟨s1, s2⟩ | ⟨t, s1, s2⟩
      · exact Or.inl ⟨i1.trans s1, i2.trans s2⟩
      · exact Or.inr ⟨t, i1.trans s1, i2.trans s2⟩
    · exact Or.inr ⟨t, i1, i2⟩

theorem loopStep_fps_fields (fetch : String → Option SteamPayload)
    (tok : String → List String) (pol : String → ℚ) (review_count_req : ℕ)
    (st : LoopState) (hfps : st.first_page_seen = true) :
    ((loopStep fetch tok pol review_count_req st).elim id id).steam_total =
      st.steam_total ∧
    ((loopStep fetch tok pol review_count_req st).elim id id).effective_target_count =
      st.effective_target_count := by
  simp only [loopStep]
  split
  · exact ⟨rfl, rfl⟩
  next hguard =>
  split
  · exact ⟨rfl, rfl⟩
  next cur hcur =>
  split
  · exact ⟨rfl, rfl⟩
  next hseen =>
  split
  · exact ⟨rfl, rfl⟩
  next payload hfetch =>
  split
  · exact ⟨rfl, rfl⟩
  next hsucc =>
  have heq := applyFirstPage_of_seen review_count_req payload (bumpFetched cur st)
    (show (bumpFetched cur st).first_page_seen = true from hfps)
  split <;> rw [heq] <;> exact ⟨rfl, rfl⟩

theorem collectLoop_fps_stable (fetch : String → Option SteamPayload)
    (tok : String → List String) (pol : String → ℚ) (review_count_req : ℕ) :
    ∀ st : LoopState, st.first_page_seen = true →
      (collectLoop fetch tok pol review_count_req st).steam_total = st.steam_total ∧
      (collectLoop fetch tok pol review_count_req st).effective_target_count =
        st.effective_target_count := by
  intro st
  induction st using collectLoop.induct fetch tok pol review_count_req with
  | case1 x stF hstep =>
    intro hfps
    rw [collectLoop_eq_of_inl fetch tok pol review_count_req x stF hstep]
    have := loopStep_fps_fields fetch tok pol review_count_req x hfps
    rwa [hstep] at this
  | case2 x st' hstep ih =>
    intro hfps
    rw [collectLoop_eq_of_inr fetch tok pol review_count_req x st' hstep]
    have hfields := loopStep_fps_fields fetch tok pol review_count_req x hfps
    rw [hstep] at hfields
    simp only [Sum.elim_inr, id] at hfields
    have hfps2 : st'.first_page_seen = true :=
      (loopStep_inr fetch tok pol review_count_req x st' hstep).2.1
    have := ih hfps2
    exact ⟨this.1.trans hfields.1, this.2.trans hfields.2⟩

theorem loopStep_eq_of_success (fetch : String → Option SteamPayload)
    (tok : String → List String) (pol : String → ℚ) (review_count_req : ℕ)
    (st : LoopState) (c : String) (payload : SteamPayload)
    (hpc : st.params_cursor = some c)
    (hguard : st.pages_fetched < st.pages_needed ∧
      st.all_reviews.length < st.target_count ∧ cursorOk st.params_cursor = true)
    (hseen : c ∉ st.seen_cursors)
    (hfetch : fetch c = some payload)
    (hsucc : payload.success = 1) :
    loopStep fetch tok pol review_count_req st =
      (if payload.reviews.isEmpty then
        Sum.inl { applyFirstPage review_count_req payload (bumpFetched c st) with
          params_cursor := none }
      else
        Sum.inr (advanceCursor payload (appendPage tok pol payload
          (applyFirstPage review_count_req payload (bumpFetched c st))))) := by
  unfold loopStep
  rw [if_neg (not_not_intro hguard)]
  simp only [hpc]
  rw [if_neg hseen]
  simp only [hfetch]
  rw [if_neg (not_not_intro hsucc)]

theorem collectLoop_first_page_total (fetch : String → Option SteamPayload)
    (tok : String → List String) (pol : String → ℚ) (review_count_req : ℕ)
    (st0 : LoopState) (c : String) (p : SteamPayload) (t : ℕ)
    (hpc : st0.params_cursor = some c)
    (hg1 : st0.pages_fetched < st0.pages_needed)
    (hg2 : st0.all_reviews.length < st0.target_count)
    (hok : cursorOkStr c = true)
    (hseen : st0.seen_cursors = [])
    (hfps : st0.first_page_seen = false)
    (hfetch : fetch c = some p) (hsucc : p.success = 1)
    (htot : safeTotalFromPayload p = some t) :
    (collectLoop fetch tok pol review_count_req st0).steam_total = some t ∧
    (collectLoop fetch tok pol review_count_req st0).effective_target_count =
      natClamp (min review_count_req t) MIN_REVIEW_COUNT MAX_REVIEW_COUNT := by
  have hguard : st0.pages_fetched < st0.pages_needed ∧
      st0.all_reviews.length < st0.target_count ∧ cursorOk st0.params_cursor = true :=
    ⟨hg1, hg2, by rw [hpc]; exact hok⟩
  have hstep := loopStep_eq_of_success fetch tok pol review_count_req st0 c p hpc hguard
    (by rw [hseen]; simp) hfetch hsucc
  have hst2 := applyFirstPage_of_total_some review_count_req p (bumpFetched c st0) t
    (show (bumpFetched c st0).first_page_seen = false from hfps) htot
  cases hrev : p.reviews.isEmpty with
  | true =>
    rw [hrev, if_pos rfl] at hstep
    rw [collectLoop_eq_of_inl fetch tok pol review_count_req st0 _ hstep]
    rw [hst2]
    exact ⟨rfl, rfl⟩
  | false =>
    rw [hrev] at hstep
    simp only [Bool.false_eq_true, if_false] at hstep
    rw [collectLoop_eq_of_inr fetch tok pol review_count_req st0 _ hstep]
    have hfps2 : (advanceCursor p (appendPage tok pol p
        (applyFirstPage review_count_req p (bumpFetched c st0)))).first_page_seen = true := by
      show (applyFirstPage review_count_req p (bumpFetched c st0)).first_page_seen = true
      exact applyFirstPage_first_page_seen review_count_req p (bumpFetched c st0)
    have hstab := collectLoop_fps_stable fetch tok pol review_count_req _ hfps2
    refine ⟨?_, ?_⟩
    · rw [hstab.1]
      show (applyFirstPage review_count_req p (bumpFetched c st0)).steam_total = some t
      rw [hst2]
    · rw [hstab.2]
      show (applyFirstPage review_count_req p (bumpFetched c st0)).effective_target_count = _
      rw [hst2]

theorem pagesFor_pos (need : ℕ) (h : 0 < need) : 0 < pagesFor need := by
  unfold pagesFor STEAM_REVIEWS_PER_PAGE
  rcases Nat.lt_or_ge need 100 with h2 | h2
  · have hmod : need % 100 = need := Nat.mod_eq_of_lt h2
    rw [hmod, if_pos (by omega : need ≠ 0)]
    omega
  · have : 1 ≤ need / 100 := (Nat.one_le_div_iff (by omega)).mpr h2
    omega

/-- What one `/analyze` request leaves in `steam_total_reviews` and
`effective_target_count`: the loop result when the loop runs (with the
exhaustion-time inference of the total at lines 603-605), otherwise the
start-of-request values of lines 513-519. -/
def analyzeCollected (fetch : String → Option SteamPayload) (tok : String → List String)
    (pol : String → ℚ) (review_count_req : ℕ) (e0 : CacheEntry) : Option ℕ × ℕ :=
  if 0 < analyzeTarget0 review_count_req e0 - e0.all_reviews.length ∧
      cursorOkStr (initCursor e0) = true then
    (if (collectLoop fetch tok pol review_count_req
          (analyzeLoopStart review_count_req e0)).steam_total = none ∧
        cursorOk (collectLoop fetch tok pol review_count_req
          (analyzeLoopStart review_count_req e0)).cursor = false then
      (some (collectLoop fetch tok pol review_count_req
          (analyzeLoopStart review_count_req e0)).all_reviews.length,
        (collectLoop fetch tok pol review_count_req
          (analyzeLoopStart review_count_req e0)).effective_target_count)
    else
      ((collectLoop fetch tok pol review_count_req
          (analyzeLoopStart review_count_req e0)).steam_total,
        (collectLoop fetch tok pol review_count_req
          (analyzeLoopStart review_count_req e0)).effective_target_count))
  else (e0.steam_total_reviews, analyzeTarget0 review_count_req e0)

theorem analyzeCore_total_eff (fetch : String → Option SteamPayload)
    (tok : String → List String) (pol : String → ℚ) (now : ℚ) (cache : CacheDict)
    (app_id review_filter language : String) (review_count_req : ℕ) :
    (analyzeCore fetch tok pol now cache app_id review_filter language
        review_count_req).entry.steam_total_reviews =
      (analyzeCollected fetch tok pol review_count_req
        (resolveEntry now cache app_id review_filter language review_count_req)).1 ∧
    (analyzeCore fetch tok pol now cache app_id review_filter language
        review_count_req).entry.effective_target_count =
      (analyzeCollected fetch tok pol review_count_req
        (resolveEntry now cache app_id review_filter language review_count_req)).2 ∧
    (analyzeCore fetch tok pol now cache app_id review_filter language
        review_count_req).effective_target =
      (analyzeCollected fetch tok pol review_count_req
        (resolveEntry now cache app_id review_filter language review_count_req)).2 := by
  simp only [analyzeCore, analyzeCollected]
  split
  · split
    · exact ⟨rfl, rfl, rfl⟩
    · exact ⟨rfl, rfl, rfl⟩
  · exact ⟨rfl, rfl, rfl⟩

/-- Fixtures for the C2 example: identity tokenizer, zero polarity, and an
upstream whose first page reports a total of 22 reviews. -/
def tokId : String → List String := fun s => [s]

def polZero : String → ℚ := fun _ => 0

def page22 : SteamPayload :=
  { success := 1
    query_total_reviews := some 22
    reviews := [{ playtime_at_review := some 60, playtime_forever := none,
                  review := some "only 3 hours long" }]
    cursor := some "0" }

def fetch22 : String → Option SteamPayload := fun c =>
  if c == "*" then some page22 else none

/-- C2 (general part): under a clamped requested count, the effective target
an `/analyze` request stores never exceeds the hard cap `MAX_REVIEW_COUNT`
(5000); when a total is known at the start of the request, or when the
upstream reports one on the first fetched page of this request, the stored
entry ends with `steam_total_reviews = some m` for some m and
`effective_target_count = natClamp (min req m)`. -/
theorem c2_effective_target_general (fetch : String → Option SteamPayload)
    (tok : String → List String) (pol : String → ℚ) (now : ℚ) (cache : CacheDict)
    (app_id review_filter language : String) (review_count_req : ℕ)
    (hreq1 : MIN_REVIEW_COUNT ≤ review_count_req)
    (hreq2 : review_count_req ≤ MAX_REVIEW_COUNT) :
    ((analyzeCore fetch tok pol now cache app_id review_filter language
        review_count_req).effective_target ≤ MAX_REVIEW_COUNT ∧
     (analyzeCore fetch tok pol now cache app_id review_filter language
        review_count_req).entry.effective_target_count ≤ MAX_REVIEW_COUNT) ∧
    (∀ n, (resolveEntry now cache app_id review_filter language
        review_count_req).steam_total_reviews = some n →
      ∃ m, (analyzeCore fetch tok pol now cache app_id review_filter language
          review_count_req).entry.steam_total_reviews = some m ∧
        (analyzeCore fetch tok pol now cache app_id review_filter language
          review_count_req).entry.effective_target_count =
          natClamp (min review_count_req m) MIN_REVIEW_COUNT MAX_REVIEW_COUNT ∧
        (analyzeCore fetch tok pol now cache app_id review_filter language
          review_count_req).effective_target =
          natClamp (min review_count_req m) MIN_REVIEW_COUNT MAX_REVIEW_COUNT) ∧
    (∀ p t,
      (resolveEntry now cache app_id review_filter language
          review_count_req).all_reviews.length <
        analyzeTarget0 review_count_req
          (resolveEntry now cache app_id review_filter language review_count_req) →
      cursorOkStr (initCursor (resolveEntry now cache app_id review_filter language
        review_count_req)) = true →
      fetch (initCursor (resolveEntry now cache app_id review_filter language
        review_count_req)) = some p →
      p.success = 1 → safeTotalFromPayload p = some t →
      (analyzeCore fetch tok pol now cache app_id review_filter language
          review_count_req).entry.steam_total_reviews = some t ∧
      (analyzeCore fetch tok pol now cache app_id review_filter language
          review_count_req).entry.effective_target_count =
        natClamp (min review_count_req t) MIN_REVIEW_COUNT MAX_REVIEW_COUNT ∧
      (analyzeCore fetch tok pol now cache app_id review_filter language
          review_count_req).effective_target =
        natClamp (min review_count_req t) MIN_REVIEW_COUNT MAX_REVIEW_COUNT) := by
  obtain ⟨hchar1, hchar2, hchar3⟩ :=
    analyzeCore_total_eff fetch tok pol now cache app_id review_filter language
      review_count_req
  have htarget0_le : analyzeTarget0 review_count_req
      (resolveEntry now cache app_id review_filter language review_count_req) ≤
        MAX_REVIEW_COUNT := by
    unfold analyzeTarget0
    split
    · exact natClamp_le_max _
    · exact hreq2
  have hstart_eff : (analyzeLoopStart review_count_req
      (resolveEntry now cache app_id review_filter language
        review_count_req)).effective_target_count =
      analyzeTarget0 review_count_req
        (resolveEntry now cache app_id review_filter language review_count_req) := rfl
  refine ⟨?_, ?_, ?_⟩
  · -- the cap
    have heff : (analyzeCollected fetch tok pol review_count_req
        (resolveEntry now cache app_id review_filter language review_count_req)).2 ≤
        MAX_REVIEW_COUNT := by
      unfold analyzeCollected
      split
      · rcases collectLoop_shape fetch tok pol review_count_req
          (analyzeLoopStart review_count_req
            (resolveEntry now cache app_id review_filter language review_count_req)) with
          ⟨_, h2⟩ | ⟨t, _, h2⟩
        · split
          · simpa [h2, hstart_eff] using htarget0_le
          · simpa [h2, hstart_eff] using htarget0_le
        · split
          · simpa [h2] using natClamp_le_max (min review_count_req t)
          · simpa [h2] using natClamp_le_max (min review_count_req t)
      · exact htarget0_le
    exact ⟨hchar3 ▸ heff, hchar2 ▸ heff⟩
  · -- total known at request start
    intro n hn
    have ht0 : analyzeTarget0 review_count_req
        (resolveEntry now cache app_id review_filter language review_count_req) =
        natClamp (min review_count_req n) MIN_REVIEW_COUNT MAX_REVIEW_COUNT := by
      unfold analyzeTarget0
      rw [hn]
    have hcollect : ∃ m, (analyzeCollected fetch tok pol review_count_req
        (resolveEntry now cache app_id review_filter language review_count_req)).1 =
          some m ∧
        (analyzeCollected fetch tok pol review_count_req
          (resolveEntry now cache app_id review_filter language review_count_req)).2 =
          natClamp (min review_count_req m) MIN_REVIEW_COUNT MAX_REVIEW_COUNT := by
      unfold analyzeCollected
      split
      · have hst0_total : (analyzeLoopStart review_count_req
            (resolveEntry now cache app_id review_filter language
              review_count_req)).steam_total = some n := by
          show (resolveEntry now cache app_id review_filter language
            review_count_req).steam_total_reviews = some n
          exact hn
        rcases collectLoop_shape fetch tok pol review_count_req
          (analyzeLoopStart review_count_req
            (resolveEntry now cache app_id review_filter language review_count_req)) with
          ⟨h1, h2⟩ | ⟨t, h1, h2⟩
        · rw [hst0_total] at h1
          split
          next hcond => rw [h1] at hcond; simp at hcond
          next => exact ⟨n, h1, by rw [h2, hstart_eff, ht0]⟩
        · split
          next hcond => rw [h1] at hcond; simp at hcond
          next => exact ⟨t, h1, h2⟩
      · exact ⟨n, hn, ht0⟩
    obtain ⟨m, hm1, hm2⟩ := hcollect
    exact ⟨m, hchar1 ▸ hm1, hchar2 ▸ hm2, hchar3 ▸ hm2⟩
  · -- first fetched page reports a total
    intro p t hlen hok hfetch hsucc htot
    have hloop := collectLoop_first_page_total fetch tok pol review_count_req
      (analyzeLoopStart review_count_req
        (resolveEntry now cache app_id review_filter language review_count_req))
      (initCursor (resolveEntry now cache app_id review_filter language review_count_req))
      p t rfl
      (by
        show 0 < pagesFor _
        exact pagesFor_pos _ (by omega))
      (by simpa using hlen) hok rfl rfl hfetch hsucc htot
    have hcollect : (analyzeCollected fetch tok pol review_count_req
        (resolveEntry now cache app_id review_filter language review_count_req)).1 =
          some t ∧
        (analyzeCollected fetch tok pol review_count_req
          (resolveEntry now cache app_id review_filter language review_count_req)).2 =
          natClamp (min review_count_req t) MIN_REVIEW_COUNT MAX_REVIEW_COUNT := by
      unfold analyzeCollected
      rw [if_pos ⟨by omega, hok⟩]
      split
      next hcond => rw [hloop.1] at hcond; simp at hcond
      next => exact ⟨hloop.1, hloop.2⟩
    exact ⟨hchar1 ▸ hcollect.1, hchar2 ▸ hcollect.2, hchar3 ▸ hcollect.2⟩

theorem c2_example_loop :
    collectLoop fetch22 tokId polZero 1000 (analyzeLoopStart 1000 (freshEntry 0 1000)) =
      advanceCursor page22 (appendPage tokId polZero page22
        (applyFirstPage 1000 page22
          (bumpFetched "*" (analyzeLoopStart 1000 (freshEntry 0 1000))))) := by
  have hstep1 : loopStep fetch22 tokId polZero 1000
      (analyzeLoopStart 1000 (freshEntry 0 1000)) =
      Sum.inr (advanceCursor page22 (appendPage tokId polZero page22
        (applyFirstPage 1000 page22
          (bumpFetched "*" (analyzeLoopStart 1000 (freshEntry 0 1000)))))) := by
    rw [loopStep_eq_of_success fetch22 tokId polZero 1000
      (analyzeLoopStart 1000 (freshEntry 0 1000)) "*" page22 rfl
      ⟨by decide, by decide, by decide⟩ (by decide) rfl rfl]
    rw [if_neg (by decide : ¬ (page22.reviews.isEmpty = true))]
  have hstep2 : loopStep fetch22 tokId polZero 1000
      (advanceCursor page22 (appendPage tokId polZero page22
        (applyFirstPage 1000 page22
          (bumpFetched "*" (analyzeLoopStart 1000 (freshEntry 0 1000)))))) =
      Sum.inl (advanceCursor page22 (appendPage tokId polZero page22
        (applyFirstPage 1000 page22
          (bumpFetched "*" (analyzeLoopStart 1000 (freshEntry 0 1000)))))) := by
    unfold loopStep
    rw [if_pos (by decide)]
  rw [collectLoop_eq_of_inr _ _ _ _ _ _ hstep1, collectLoop_eq_of_inl _ _ _ _ _ _ hstep2]

theorem c2_example_note :
    (analyzeCore fetch22 tokId polZero 0 [] "10" "recent" "english" 1000).note =
      some "Steam reports only 22 total reviews for this game with the selected filter/language." := by
  have hres : resolveEntry 0 [] "10" "recent" "english" 1000 = freshEntry 0 1000 := rfl
  simp only [analyzeCore]
  rw [hres, c2_example_loop]
  decide

/-- C2: for an `/analyze` request with a clamped requested count, (i) the
effective target never exceeds the global hard cap of 5000; (ii) whenever
the upstream-reported total is known — already stored in the entry at the
start of the request, or reported by the source on the first page fetched in
this request — the entry ends the request with `steam_total_reviews = some m`
and `effective_target_count = min(requested, m)` clamped to
`[MIN_REVIEW_COUNT, MAX_REVIEW_COUNT]`; (iii) in particular, when the source
reports 22 total and the request asks for 1000, the stored effective target
becomes 22 and the note field reports the shortfall. -/
theorem c2_effective_target :
    (∀ (fetch : String → Option SteamPayload) (tok : String → List String)
      (pol : String → ℚ) (now : ℚ) (cache : CacheDict)
      (app_id review_filter language : String) (review_count_req : ℕ),
      MIN_REVIEW_COUNT ≤ review_count_req → review_count_req ≤ MAX_REVIEW_COUNT →
      ((analyzeCore fetch tok pol now cache app_id review_filter language
          review_count_req).effective_target ≤ MAX_REVIEW_COUNT ∧
       (analyzeCore fetch tok pol now cache app_id review_filter language
          review_count_req).entry.effective_target_count ≤ MAX_REVIEW_COUNT) ∧
      (∀ n, (resolveEntry now cache app_id review_filter language
          review_count_req).steam_total_reviews = some n →
        ∃ m, (analyzeCore fetch tok pol now cache app_id review_filter language
            review_count_req).entry.steam_total_reviews = some m ∧
          (analyzeCore fetch tok pol now cache app_id review_filter language
            review_count_req).entry.effective_target_count =
            natClamp (min review_count_req m) MIN_REVIEW_COUNT MAX_REVIEW_COUNT ∧
          (analyzeCore fetch tok pol now cache app_id review_filter language
            review_count_req).effective_target =
            natClamp (min review_count_req m) MIN_REVIEW_COUNT MAX_REVIEW_COUNT) ∧
      (∀ p t,
        (resolveEntry now cache app_id review_filter language
            review_count_req).all_reviews.length <
          analyzeTarget0 review_count_req
            (resolveEntry now cache app_id review_filter language review_count_req) →
        cursorOkStr (initCursor (resolveEntry now cache app_id review_filter language
          review_count_req)) = true →
        fetch (initCursor (resolveEntry now cache app_id review_filter language
          review_count_req)) = some p →
        p.success = 1 → safeTotalFromPayload p = some t →
        (analyzeCore fetch tok pol now cache app_id review_filter language
            review_count_req).entry.steam_total_reviews = some t ∧
        (analyzeCore fetch tok pol now cache app_id review_filter language
            review_count_req).entry.effective_target_count =
          natClamp (min review_count_req t) MIN_REVIEW_COUNT MAX_REVIEW_COUNT ∧
        (analyzeCore fetch tok pol now cache app_id review_filter language
            review_count_req).effective_target =
          natClamp (min review_count_req t) MIN_REVIEW_COUNT MAX_REVIEW_COUNT)) ∧
    ((analyzeCore fetch22 tokId polZero 0 [] "10" "recent" "english"
        1000).entry.steam_total_reviews = some 22 ∧
     (analyzeCore fetch22 tokId polZero 0 [] "10" "recent" "english"
        1000).entry.effective_target_count = 22 ∧
     (analyzeCore fetch22 tokId polZero 0 [] "10" "recent" "english"
        1000).effective_target = 22 ∧
     (analyzeCore fetch22 tokId polZero 0 [] "10" "recent" "english" 1000).note =
       some "Steam reports only 22 total reviews for this game with the selected filter/language.") := by
  constructor
  · intro fetch tok pol now cache app_id review_filter language review_count_req h1 h2
    exact c2_effective_target_general fetch tok pol now cache app_id review_filter
      language review_count_req h1 h2
  · have hb := (c2_effective_target_general fetch22 tokId polZero 0 [] "10" "recent"
      "english" 1000 (by decide) (by decide)).2.2 page22 22 (by decide) (by decide)
      rfl rfl (by decide)
    have h22 : natClamp (min 1000 22) MIN_REVIEW_COUNT MAX_REVIEW_COUNT = 22 := by decide
    exact ⟨hb.1, h22 ▸ hb.2.1, h22 ▸ hb.2.2, c2_example_note⟩

/-- Witness for `c2_effective_target` at a concrete request. -/
theorem c2_effective_target_witness :
    (MIN_REVIEW_COUNT ≤ 1000 ∧ (1000 : ℕ) ≤ MAX_REVIEW_COUNT) ∧
    ((analyzeCore fetch22 tokId polZero 0 [] "10" "recent" "english"
        1000).effective_target ≤ MAX_REVIEW_COUNT ∧
     (analyzeCore fetch22 tokId polZero 0 [] "10" "recent" "english"
        1000).entry.effective_target_count ≤ MAX_REVIEW_COUNT) ∧
    ((analyzeCore fetch22 tokId polZero 0 [] "10" "recent" "english"
        1000).entry.steam_total_reviews = some 22 ∧
     (analyzeCore fetch22 tokId polZero 0 [] "10" "recent" "english"
        1000).entry.effective_target_count =
       natClamp (min 1000 22) MIN_REVIEW_COUNT MAX_REVIEW_COUNT ∧
     (analyzeCore fetch22 tokId polZero 0 [] "10" "recent" "english"
        1000).effective_target =
       natClamp (min 1000 22) MIN_REVIEW_COUNT MAX_REVIEW_COUNT) := by
  have h := c2_effective_target.1 fetch22 tokId polZero 0 [] "10" "recent" "english"
    1000 (by decide) (by decide)
  exact ⟨⟨by decide, by decide⟩, h.1,
    h.2.2 page22 22 (by decide) (by decide) rfl rfl (by decide)⟩

/-- Fixture for C1: the upstream answers the fresh-start cursor with a
successful page that contains no reviews but a usable-looking continuation
cursor. -/
def pageEmpty : SteamPayload :=
  { success := 1
    query_total_reviews := none
    reviews := []
    cursor := some "next" }

def fetchEmptyPage : String → Option SteamPayload := fun c =>
  if c == "*" then some pageEmpty else none

/-- C1 (documenting the defect): when the upstream returns an empty page,
the loop breaks after setting only `params["cursor"]` to `None` (line 569) —
the local `cursor` variable written back at line 599 still holds the cursor
of the page just fetched.  On a fresh entry the stored cursor is therefore
`"*"`, which passes `_cursor_ok`: the entry is not marked exhausted,
`cache_progress.can_fetch_more` is reported true, the next `/analyze` for
the same key attempts the top-up again, and even the terminal-total
inference of lines 603-605 is skipped.  The claim says the stored cursor
becomes null so that no further top-up is attempted; the code keeps the
stale cursor (its own comment at line 568, `terminal condition even if
cursor looks odd`, records the contrary intent). -/
theorem c1_empty_page_keeps_stale_cursor :
    (analyzeCore fetchEmptyPage tokId polZero 0 [] "10" "recent" "english"
        1000).entry.cursor = some "*" ∧
    cursorOk (analyzeCore fetchEmptyPage tokId polZero 0 [] "10" "recent" "english"
        1000).entry.cursor = true ∧
    (analyzeCore fetchEmptyPage tokId polZero 0 [] "10" "recent" "english"
        1000).can_fetch_more = true ∧
    (analyzeCore fetchEmptyPage tokId polZero 0 [] "10" "recent" "english"
        1000).entry.steam_total_reviews = none ∧
    (analyzeCore fetchEmptyPage tokId polZero 0 [] "10" "recent" "english"
        1000).entry.all_reviews = [] := by
  have hstep1 : loopStep fetchEmptyPage tokId polZero 1000
      (analyzeLoopStart 1000 (freshEntry 0 1000)) =
      Sum.inl { applyFirstPage 1000 pageEmpty
        (bumpFetched "*" (analyzeLoopStart 1000 (freshEntry 0 1000))) with
          params_cursor := none } := by
    rw [loopStep_eq_of_success fetchEmptyPage tokId polZero 1000
      (analyzeLoopStart 1000 (freshEntry 0 1000)) "*" pageEmpty rfl
      ⟨by decide, by decide, by decide⟩ (by decide) rfl rfl]
    rw [if_pos (by decide : pageEmpty.reviews.isEmpty = true)]
  have hloop : collectLoop fetchEmptyPage tokId polZero 1000
      (analyzeLoopStart 1000 (freshEntry 0 1000)) =
      { applyFirstPage 1000 pageEmpty
        (bumpFetched "*" (analyzeLoopStart 1000 (freshEntry 0 1000))) with
          params_cursor := none } :=
    collectLoop_eq_of_inl _ _ _ _ _ _ hstep1
  have hres : resolveEntry 0 [] "10" "recent" "english" 1000 = freshEntry 0 1000 := rfl
  refine ⟨?_, ?_, ?_, ?_, ?_⟩ <;>
    · simp only [analyzeCore]
      rw [hres, hloop]
      decide
